import Mathlib

/-!
Verification of the NBA playoff odds engine core: a shallow embedding of
the rating model (`elo.py`), the bracket seeder and series simulator
(`bracket.py`), and the Monte Carlo aggregator (`simulation.py`).

Python floats are idealised as real numbers; Python dicts become explicit
functional maps or association lists; the pseudo-random generator is
modelled as a deterministic stream of draw values threaded through the
computation, with the library generator (`random.Random`) abstracted as a
seed-indexed family of streams.  Exceptions (`ValueError`, `KeyError`)
become `Except` / `Option` results, and in-place mutation of the ratings
dict becomes explicit state passing.
-/

namespace NbaOdds

/-! ## Rating model (`elo.py`) -/

/-- Shallow embedding of `expected_home_win_prob` from `elo.py`:
`1.0 / (1.0 + 10.0 ** ((away - (home + adv)) / 400.0))`. -/
noncomputable def expectedHomeWinProb (homeElo awayElo homeCourtAdv : ℝ) : ℝ :=
  let adjustedHome := homeElo + homeCourtAdv
  let exponent := (awayElo - adjustedHome) / 400
  1 / (1 + (10 : ℝ) ^ exponent)

/-- Shallow embedding of `update_elo` from `elo.py`. `homeWon` is the
Python bool argument; `actual_home` is 1.0 when the home team won else 0.0. -/
noncomputable def updateElo (homeElo awayElo : ℝ) (homeWon : Bool)
    (kFactor homeCourtAdv : ℝ) : ℝ × ℝ :=
  let expHome := expectedHomeWinProb homeElo awayElo homeCourtAdv
  let actualHome : ℝ := if homeWon then 1 else 0
  let delta := kFactor * (actualHome - expHome)
  (homeElo + delta, awayElo - delta)

/-! ## Data model (`models.py`) -/

/-- Shallow embedding of the frozen dataclass `SeededTeam` from `models.py`. -/
structure SeededTeam where
  team_id : ℤ
  team_name : String
  conference : String
  seed : ℕ
deriving DecidableEq

/-- Rating map `dict[int, float]`: a functional map from team id to rating. -/
def Ratings : Type := ℤ → Option ℝ

/-- Embedding of `ratings.get(team_id, 1500.0)`. -/
def getRating (r : Ratings) (id : ℤ) : ℝ := (r id).getD 1500

/-- Embedding of the in-place dict store `ratings[team_id] = v`. -/
def setRating (r : Ratings) (id : ℤ) (v : ℝ) : Ratings := Function.update r id (some v)

/-- A `random.Random` instance mid-stream: the deterministic stream of
`random()` outputs of the generator together with the current position. -/
def Rng : Type := (ℕ → ℝ) × ℕ

/-- One call to `rng.random()`: returns the next draw and advances the stream. -/
def drawRandom (g : Rng) : ℝ × Rng := (g.1 g.2, (g.1, g.2 + 1))

/-! ## Series simulator (`bracket.py`) -/

/-- The fixed 2-2-1-1-1 home schedule `schedule_high_home` of `_simulate_series`. -/
def scheduleHighHome : List Bool := [true, true, false, false, true, false, true]

/-- The game loop of `_simulate_series`: iterate over the remaining home
schedule carrying the two win counters, with the `break` on either side
reaching 4 wins checked at the top of each iteration, exactly as in the
source.  Returns the final counters and the threaded ratings / rng state. -/
noncomputable def seriesGo (highSeed lowSeed : SeededTeam) (kFactor homeCourtAdv : ℝ) :
    List Bool → ℕ → ℕ → Ratings → Rng → ℕ × ℕ × Ratings × Rng
  | [], highWins, lowWins, ratings, rng => (highWins, lowWins, ratings, rng)
  | highIsHome :: rest, highWins, lowWins, ratings, rng =>
    if highWins = 4 ∨ lowWins = 4 then (highWins, lowWins, ratings, rng)
    else
      let home := if highIsHome then highSeed else lowSeed
      let away := if highIsHome then lowSeed else highSeed
      let homeElo := getRating ratings home.team_id
      let awayElo := getRating ratings away.team_id
      let homeProb := expectedHomeWinProb homeElo awayElo homeCourtAdv
      let draw := (drawRandom rng).1
      let rng' := (drawRandom rng).2
      let homeWon : Bool := decide (draw < homeProb)
      let upd := updateElo homeElo awayElo homeWon kFactor homeCourtAdv
      let ratings' := setRating (setRating ratings home.team_id upd.1) away.team_id upd.2
      let highTeamWon : Bool :=
        (home.team_id == highSeed.team_id && homeWon) ||
          (away.team_id == highSeed.team_id && !homeWon)
      if highTeamWon then
        seriesGo highSeed lowSeed kFactor homeCourtAdv rest (highWins + 1) lowWins ratings' rng'
      else
        seriesGo highSeed lowSeed kFactor homeCourtAdv rest highWins (lowWins + 1) ratings' rng'

/-- Shallow embedding of `_simulate_series`: run the game loop from 0-0 over
the fixed schedule and return `high_seed if high_wins > low_wins else
low_seed`, together with the final ratings and rng state (the Python
function mutates these in place). -/
noncomputable def simulateSeries (highSeed lowSeed : SeededTeam) (ratings : Ratings)
    (rng : Rng) (kFactor homeCourtAdv : ℝ) : SeededTeam × Ratings × Rng :=
  let out := seriesGo highSeed lowSeed kFactor homeCourtAdv scheduleHighHome 0 0 ratings rng
  (if out.1 > out.2.1 then highSeed else lowSeed, out.2.2.1, out.2.2.2)

/-- Shallow embedding of `_series_with_home_court`: the lower numeric seed
takes the high-seed role; on equal seeds the higher-rated team (ratings
default 1500.0) takes it. -/
noncomputable def seriesWithHomeCourt (teamA teamB : SeededTeam) (ratings : Ratings)
    (rng : Rng) (kFactor homeCourtAdv : ℝ) : SeededTeam × Ratings × Rng :=
  if teamA.seed < teamB.seed then simulateSeries teamA teamB ratings rng kFactor homeCourtAdv
  else if teamB.seed < teamA.seed then simulateSeries teamB teamA ratings rng kFactor homeCourtAdv
  else
    simulateSeries
      (if getRating ratings teamA.team_id ≥ getRating ratings teamB.team_id then teamA else teamB)
      (if getRating ratings teamA.team_id ≥ getRating ratings teamB.team_id then teamB else teamA)
      ratings rng kFactor homeCourtAdv

/-! ## Bracket runner (`bracket.py`) -/

/-- Embedding of the dict comprehension `by_seed = {t.seed: t for t in teams}`
(later entries overwrite earlier ones) followed by indexing. -/
def bySeed (teams : List SeededTeam) : ℕ → Option SeededTeam :=
  teams.foldl (fun m t => Function.update m t.seed (some t)) fun _ => none

/-- Playoff field `dict[str, list[SeededTeam]]` with its two fixed keys. -/
structure PlayoffField where
  east : List SeededTeam
  west : List SeededTeam
deriving DecidableEq

/-- One conference bracket of `simulate_playoffs` (the body of the loop over
`("East", "West")`): quarterfinals (1,8), (4,5), (2,7), (3,6), semifinals
(QF1,QF2), (QF3,QF4), then the conference final, threading ratings and rng.
`none` models the `KeyError` raised when a seed is missing from `by_seed`. -/
noncomputable def confChampion (teams : List SeededTeam) (ratings : Ratings) (rng : Rng)
    (kFactor homeCourtAdv : ℝ) : Option (SeededTeam × Ratings × Rng) := do
  let s1 ← bySeed teams 1
  let s2 ← bySeed teams 2
  let s3 ← bySeed teams 3
  let s4 ← bySeed teams 4
  let s5 ← bySeed teams 5
  let s6 ← bySeed teams 6
  let s7 ← bySeed teams 7
  let s8 ← bySeed teams 8
  let qf1 := simulateSeries s1 s8 ratings rng kFactor homeCourtAdv
  let qf2 := simulateSeries s4 s5 qf1.2.1 qf1.2.2 kFactor homeCourtAdv
  let qf3 := simulateSeries s2 s7 qf2.2.1 qf2.2.2 kFactor homeCourtAdv
  let qf4 := simulateSeries s3 s6 qf3.2.1 qf3.2.2 kFactor homeCourtAdv
  let sf1 := seriesWithHomeCourt qf1.1 qf2.1 qf4.2.1 qf4.2.2 kFactor homeCourtAdv
  let sf2 := seriesWithHomeCourt qf3.1 qf4.1 sf1.2.1 sf1.2.2 kFactor homeCourtAdv
  some (seriesWithHomeCourt sf1.1 sf2.1 sf2.2.1 sf2.2.2 kFactor homeCourtAdv)

/-- Shallow embedding of `simulate_playoffs`: East bracket, then West bracket
on the same ratings and rng, then the championship with home court resolved
by comparing the two champions' current ratings (`east_rating >= west_rating`). -/
noncomputable def simulatePlayoffs (field : PlayoffField) (ratings : Ratings) (rng : Rng)
    (kFactor homeCourtAdv : ℝ) : Option (SeededTeam × SeededTeam × SeededTeam) := do
  let eastOut ← confChampion field.east ratings rng kFactor homeCourtAdv
  let westOut ← confChampion field.west eastOut.2.1 eastOut.2.2 kFactor homeCourtAdv
  let east := eastOut.1
  let west := westOut.1
  let eastRating := getRating westOut.2.1 east.team_id
  let westRating := getRating westOut.2.1 west.team_id
  let finals :=
    if eastRating ≥ westRating then
      simulateSeries east west westOut.2.1 westOut.2.2 kFactor homeCourtAdv
    else
      simulateSeries west east westOut.2.1 westOut.2.2 kFactor homeCourtAdv
  some (finals.1, east, west)

/-- Modelled from claim C8's words: a variant of `simulate_playoffs` whose
championship round composes the two conference champions with the same
seed-then-rating home-court rule (`_series_with_home_court`) that claim C8
asserts is "applied the same way at every round where winners are composed".
Used only to compare the claimed behaviour against the code's behaviour. -/
noncomputable def simulatePlayoffsClaimedFinals (field : PlayoffField) (ratings : Ratings)
    (rng : Rng) (kFactor homeCourtAdv : ℝ) :
    Option (SeededTeam × SeededTeam × SeededTeam) := do
  let eastOut ← confChampion field.east ratings rng kFactor homeCourtAdv
  let westOut ← confChampion field.west eastOut.2.1 eastOut.2.2 kFactor homeCourtAdv
  let east := eastOut.1
  let west := westOut.1
  let finals := seriesWithHomeCourt east west westOut.2.1 westOut.2.2 kFactor homeCourtAdv
  some (finals.1, east, west)

/-! ## Concrete inputs used by witnesses and counterexamples -/

/-- East team with seed `i` and team id `i` in the concrete playoff field. -/
def eCex (i : ℕ) : SeededTeam := ⟨(i : ℤ), "E", "East", i⟩

/-- West team with seed `i` and team id `10 + i` in the concrete playoff field. -/
def wCex (i : ℕ) : SeededTeam := ⟨((10 + i : ℕ) : ℤ), "W", "West", i⟩

/-- Eight seeded East teams. -/
def eastTeamsCex : List SeededTeam :=
  [eCex 1, eCex 2, eCex 3, eCex 4, eCex 5, eCex 6, eCex 7, eCex 8]

/-- Eight seeded West teams. -/
def westTeamsCex : List SeededTeam :=
  [wCex 1, wCex 2, wCex 3, wCex 4, wCex 5, wCex 6, wCex 7, wCex 8]

/-- A concrete, structurally valid playoff field. -/
def fieldCex : PlayoffField := ⟨eastTeamsCex, westTeamsCex⟩

/-- Concrete baseline ratings: East seed 1 (team id 1) is rated 1400, West
seed 2 (team id 12) is rated 1600, everyone else sits at 1500; every team id
has an entry. -/
noncomputable def ratingsCex : Ratings := fun id =>
  some (if id = 1 then 1400 else if id = 12 then 1600 else 1500)

/-- Concrete draw stream.  Outside positions 28-31 it follows the pattern
0,0,1,1 per 4-game block, which makes the high-seed-role team win every game
of a series (a draw of 0 always falls below the home win probability, a draw
of 1 never does); positions 28-31 follow 1,1,0,0, which makes the low-seed
role win all four games of the series played there. -/
noncomputable def streamCex : ℕ → ℝ := fun n =>
  if 28 ≤ n ∧ n < 32 then (if n % 4 < 2 then 1 else 0)
  else (if n % 4 < 2 then 0 else 1)

/-- Concrete rng at the start of the stream. -/
noncomputable def rngCex : Rng := (streamCex, 0)

/-! ## Monte Carlo aggregator (`simulation.py`) -/

/-- A `collections.Counter` as an insertion-ordered association list of keys
with positive counts; `bump` is `counter[key] += 1`. -/
def bump {κ : Type} [DecidableEq κ] : List (κ × ℕ) → κ → List (κ × ℕ)
  | [], key => [(key, 1)]
  | e :: rest, key => if e.1 = key then (e.1, e.2 + 1) :: rest else e :: bump rest key

/-- The total count held by a counter. -/
def countTotal {κ : Type} (l : List (κ × ℕ)) : ℕ := (l.map fun e => e.2).sum

/-- The four counters accumulated by the Monte Carlo loop: `champ_counts`,
`conference_counts["East"]`, `conference_counts["West"]`, `finals_counts`. -/
structure Tally where
  champ : List (ℤ × ℕ)
  east : List (ℤ × ℕ)
  west : List (ℤ × ℕ)
  finals : List (String × ℕ)

/-- Embedding of the `team_lookup` dict comprehension over the East then the
West list (later duplicates overwrite earlier entries). -/
def teamLookup (field : PlayoffField) : ℤ → Option String :=
  (field.east ++ field.west).foldl
    (fun (acc : ℤ → Option String) t => Function.update acc t.team_id (some t.team_name))
    fun _ => none

/-- A fresh child generator `random.Random(child_seed)` at stream position 0. -/
def mkChildRng (randomSeq : ℕ → ℕ → ℝ) (childSeed : ℕ) : Rng := (randomSeq childSeed, 0)

/-- The Monte Carlo trial loop of `run_monte_carlo`.  `randintSeq seed`
abstracts the stream of `parent_rng.randint(0, 10**9)` draws of
`random.Random(seed)`, and `randomSeq s` abstracts the `random()` stream of
the child generator `random.Random(s)`; the trial index `t` counts parent
draws.  Each trial runs on `dict(base_ratings)` — the fresh copy of the
caller's unmutated map, which in value semantics is the map itself.  A
`KeyError` escaping `simulate_playoffs` aborts the whole call. -/
noncomputable def runTrials (randintSeq : ℤ → ℕ → ℕ) (randomSeq : ℕ → ℕ → ℝ)
    (field : PlayoffField) (baseRatings : Ratings) (kFactor homeCourtAdv : ℝ) (seed : ℤ) :
    ℕ → ℕ → Tally → Except String Tally
  | 0, _, tally => .ok tally
  | remaining + 1, t, tally =>
    match simulatePlayoffs field baseRatings (mkChildRng randomSeq (randintSeq seed t))
        kFactor homeCourtAdv with
    | none => .error "KeyError: seed missing from playoff field"
    | some (champion, eastChamp, westChamp) =>
      runTrials randintSeq randomSeq field baseRatings kFactor homeCourtAdv seed remaining
        (t + 1)
        ⟨bump tally.champ champion.team_id, bump tally.east eastChamp.team_id,
          bump tally.west westChamp.team_id,
          bump tally.finals (eastChamp.team_name ++ " vs " ++ westChamp.team_name)⟩

/-- Conversion of a counter into an odds dict: each counted id is resolved
through `team_lookup` (`KeyError` when the id is unknown) and its count is
divided by the number of simulations. -/
noncomputable def oddsOf (lookup : ℤ → Option String) (n : ℕ) :
    List (ℤ × ℕ) → Except String (List (ℤ × String × ℝ))
  | [] => .ok []
  | e :: rest =>
    match lookup e.1 with
    | none => .error "KeyError: unknown team id"
    | some nm =>
      match oddsOf lookup n rest with
      | .error msg => .error msg
      | .ok tail => .ok ((e.1, nm, (e.2 : ℝ) / (n : ℝ)) :: tail)

/-- `finals_counts.most_common(10)` followed by the division by N: a stable
sort by descending count (ties keep insertion order), truncated to ten. -/
noncomputable def mostCommonTen (n : ℕ) (counts : List (String × ℕ)) : List (String × ℝ) :=
  ((List.insertionSort (fun a b => a.2 ≥ b.2) counts).take 10).map
    fun e => (e.1, (e.2 : ℝ) / (n : ℝ))

/-- The three aggregated outputs of `run_monte_carlo`: championship odds,
conference odds (East and West), and the top-ten finals matchups. -/
structure MCOutput where
  championshipOdds : List (ℤ × String × ℝ)
  eastOdds : List (ℤ × String × ℝ)
  westOdds : List (ℤ × String × ℝ)
  finalsTopTen : List (String × ℝ)

/-- Post-processing of the finished tallies into the returned odds (lines
52-64 of `simulation.py`). -/
noncomputable def mcOutputs (field : PlayoffField) (n : ℕ) (res : Except String Tally) :
    Except String MCOutput :=
  match res with
  | .error msg => .error msg
  | .ok tally =>
    match oddsOf (teamLookup field) n tally.champ with
    | .error msg => .error msg
    | .ok championshipOdds =>
      match oddsOf (teamLookup field) n tally.east with
      | .error msg => .error msg
      | .ok eastOdds =>
        match oddsOf (teamLookup field) n tally.west with
        | .error msg => .error msg
        | .ok westOdds =>
          .ok ⟨championshipOdds, eastOdds, westOdds, mostCommonTen n tally.finals⟩

/-- Shallow embedding of `run_monte_carlo`: reject a non-positive simulation
count, run the trials from a parent generator seeded once, then convert the
counters into odds. -/
noncomputable def runMonteCarlo (randintSeq : ℤ → ℕ → ℕ) (randomSeq : ℕ → ℕ → ℝ)
    (field : PlayoffField) (baseRatings : Ratings) (nSimulations : ℕ)
    (kFactor homeCourtAdv : ℝ) (seed : ℤ) : Except String MCOutput :=
  if nSimulations = 0 then .error "n_simulations must be greater than 0"
  else
    mcOutputs field nSimulations
      (runTrials randintSeq randomSeq field baseRatings kFactor homeCourtAdv seed
        nSimulations 0 ⟨[], [], [], []⟩)

/-- The outcome of trial `t` as a function of the baseline ratings and the
trial's derived seed alone. -/
noncomputable def trialOutcome (randintSeq : ℤ → ℕ → ℕ) (randomSeq : ℕ → ℕ → ℝ)
    (field : PlayoffField) (baseRatings : Ratings) (kFactor homeCourtAdv : ℝ) (seed : ℤ)
    (t : ℕ) : Option (SeededTeam × SeededTeam × SeededTeam) :=
  simulatePlayoffs field baseRatings (mkChildRng randomSeq (randintSeq seed t))
    kFactor homeCourtAdv

/-- The trial loop driven by an abstract sequence of per-trial outcomes; used
to state that the aggregation consumes trials only through their outcomes. -/
def runTrialsFrom (outcome : ℕ → Option (SeededTeam × SeededTeam × SeededTeam)) :
    ℕ → ℕ → Tally → Except String Tally
  | 0, _, tally => .ok tally
  | remaining + 1, t, tally =>
    match outcome t with
    | none => .error "KeyError: seed missing from playoff field"
    | some (champion, eastChamp, westChamp) =>
      runTrialsFrom outcome remaining (t + 1)
        ⟨bump tally.champ champion.team_id, bump tally.east eastChamp.team_id,
          bump tally.west westChamp.team_id,
          bump tally.finals (eastChamp.team_name ++ " vs " ++ westChamp.team_name)⟩

/-- Sum of the probability components of an odds list. -/
noncomputable def sumProbs (l : List (ℤ × String × ℝ)) : ℝ := (l.map fun e => e.2.2).sum

/-- Constant-zero stream standing in for the parent `randint` stream in
witnesses. -/
def zeroIntSeq : ℤ → ℕ → ℕ := fun _ _ => 0

/-- Constant-zero stream standing in for child `random()` streams in
witnesses. -/
noncomputable def zeroRealSeq : ℕ → ℕ → ℝ := fun _ _ => 0

/-! ## Bracket seeder (`bracket.py` / `models.py`) -/

/-- Shallow embedding of the frozen dataclass `TeamStanding` from `models.py`. -/
structure TeamStanding where
  season : ℤ
  team_id : ℤ
  team_name : String
  conference : String
  wins : ℕ
  losses : ℕ
deriving DecidableEq

/-- The derived property `win_pct`: `wins / total` when games were played,
else 0.0 — exact rational division idealises the float quotient. -/
def TeamStanding.win_pct (s : TeamStanding) : ℚ :=
  if s.wins + s.losses = 0 then 0 else mkRat s.wins (s.wins + s.losses)

/-- Python `str.strip()`: drop leading and trailing whitespace. -/
def pyStrip (s : String) : String :=
  ⟨(((s.toList.dropWhile Char.isWhitespace).reverse.dropWhile Char.isWhitespace).reverse)⟩

/-- Worker for Python `str.title()`: upper-case every letter that starts a
run of letters, lower-case the rest (ASCII behaviour). -/
def pyTitleGo : Bool → List Char → List Char
  | _, [] => []
  | prevAlpha, c :: rest =>
    if c.isAlpha then
      (if prevAlpha then c.toLower else c.toUpper) :: pyTitleGo true rest
    else
      c :: pyTitleGo false rest

/-- Python `str.title()`. -/
def pyTitle (s : String) : String := ⟨pyTitleGo false s.toList⟩

/-- The conference normalisation `row.conference.strip().title()` used by
`build_playoff_field`. -/
def normalizeConference (s : String) : String := pyTitle (pyStrip s)

/-- The rows grouped under one conference key: rows whose normalised
conference equals it, in input order (the `defaultdict` grouping loop). -/
def qualifying (standings : List TeamStanding) (conference : String) : List TeamStanding :=
  standings.filter fun row => normalizeConference row.conference = conference

/-- The sort key `(-win_pct, -wins, losses, team_name)` of the lambda in
`build_playoff_field`. -/
def standingSortKey (s : TeamStanding) : ℚ × ℤ × ℤ × String :=
  (-(s.win_pct), -((s.wins : ℤ)), ((s.losses : ℤ)), s.team_name)

/-- Python's lexicographic non-strict tuple comparison on sort keys. -/
def keyLe (a b : ℚ × ℤ × ℤ × String) : Bool :=
  if a.1 < b.1 then true
  else if b.1 < a.1 then false
  else if a.2.1 < b.2.1 then true
  else if b.2.1 < a.2.1 then false
  else if a.2.2.1 < b.2.2.1 then true
  else if b.2.2.1 < a.2.2.1 then false
  else decide (a.2.2.2 ≤ b.2.2.2)

/-- Python's `sorted(rows, key=...)` is a stable ascending sort by the key
tuple; every stable sort agrees with it on the total preorder induced by the
key, so insertion sort models it faithfully. -/
def sortStandings (rows : List TeamStanding) : List TeamStanding :=
  List.insertionSort (fun a b => keyLe (standingSortKey a) (standingSortKey b) = true) rows

/-- The seed-assignment comprehension: `enumerate(rows)` with seed `i + 1`
and the loop's conference string. -/
def assignSeeds (conference : String) : ℕ → List TeamStanding → List SeededTeam
  | _, [] => []
  | i, t :: rest =>
    ⟨t.team_id, t.team_name, conference, i + 1⟩ :: assignSeeds conference (i + 1) rest

/-- Shallow embedding of `build_playoff_field`: group by normalised
conference, sort each conference by the key tuple, take the top eight, seed
them 1..8, and fail unless both conferences filled all eight slots. -/
def buildPlayoffField (standings : List TeamStanding) : Except String PlayoffField :=
  let east := assignSeeds "East" 0 ((sortStandings (qualifying standings "East")).take 8)
  let west := assignSeeds "West" 0 ((sortStandings (qualifying standings "West")).take 8)
  if east.length < 8 ∨ west.length < 8 then
    .error "Could not build playoff field: both conferences need at least 8 teams in standings"
  else
    .ok ⟨east, west⟩

/-- Modelled from the spec's seeding sentence, for comparison with the code's
key-tuple sort: "sort descending by win percentage, then descending by win
count, then ascending by loss count, then ascending by team name". -/
def specStandingLe (a b : TeamStanding) : Bool :=
  if a.win_pct ≠ b.win_pct then decide (b.win_pct < a.win_pct)
  else if a.wins ≠ b.wins then decide (b.wins < a.wins)
  else if a.losses ≠ b.losses then decide (a.losses < b.losses)
  else decide (a.team_name ≤ b.team_name)

/-- The seeding order described by the spec. -/
def specSort (rows : List TeamStanding) : List TeamStanding :=
  List.insertionSort (fun a b => specStandingLe a b = true) rows

/-- A concrete standings list: 8 East and 8 West teams with pairwise distinct
win percentages (East team `i` has id `i` and record `(20 - i, i)`, West team
`i` has id `10 + i` and record `(20 - i, i + 1)`). -/
def standingsCex : List TeamStanding :=
  [⟨2025, 1, "EA", "East", 19, 1⟩, ⟨2025, 2, "EB", "East", 18, 2⟩,
   ⟨2025, 3, "EC", "East", 17, 3⟩, ⟨2025, 4, "ED", "East", 16, 4⟩,
   ⟨2025, 5, "EE", "East", 15, 5⟩, ⟨2025, 6, "EF", "East", 14, 6⟩,
   ⟨2025, 7, "EG", "East", 13, 7⟩, ⟨2025, 8, "EH", "East", 12, 8⟩,
   ⟨2025, 11, "WA", "West", 19, 2⟩, ⟨2025, 12, "WB", "West", 18, 3⟩,
   ⟨2025, 13, "WC", "West", 17, 4⟩, ⟨2025, 14, "WD", "West", 16, 5⟩,
   ⟨2025, 15, "WE", "West", 15, 6⟩, ⟨2025, 16, "WF", "West", 14, 7⟩,
   ⟨2025, 17, "WG", "West", 13, 8⟩, ⟨2025, 18, "WH", "West", 12, 9⟩]

/-- The field built from the concrete standings. -/
def fieldFromStandingsCex : PlayoffField :=
  ⟨assignSeeds "East" 0 ((sortStandings (qualifying standingsCex "East")).take 8),
    assignSeeds "West" 0 ((sortStandings (qualifying standingsCex "West")).take 8)⟩

/-- A concrete standings list with only seven East rows. -/
def shortStandingsCex : List TeamStanding := standingsCex.take 7

end NbaOdds

namespace NbaOdds

/-! ## Helper lemmas about the rating model -/

theorem expectedHomeWinProb_pos (h a adv : ℝ) : 0 < expectedHomeWinProb h a adv := by
  unfold expectedHomeWinProb
  have h10 : (0 : ℝ) < (10 : ℝ) ^ ((a - (h + adv)) / 400) :=
    Real.rpow_pos_of_pos (by norm_num) _
  positivity

theorem expectedHomeWinProb_lt_one (h a adv : ℝ) : expectedHomeWinProb h a adv < 1 := by
  unfold expectedHomeWinProb
  have h10 : (0 : ℝ) < (10 : ℝ) ^ ((a - (h + adv)) / 400) :=
    Real.rpow_pos_of_pos (by norm_num) _
  rw [div_lt_one (by linarith)]
  linarith

/-- C2: for every home rating, away rating, home_won flag, k-factor and
home-court advantage, `update_elo` conserves the total rating:
`new_home + new_away = old_home + old_away` (exact over the reals, which is
the idealisation of "exact up to floating-point rounding"). -/
theorem updateElo_conserves_total (h a : ℝ) (w : Bool) (k adv : ℝ) :
    (updateElo h a w k adv).1 + (updateElo h a w k adv).2 = h + a := by
  simp only [updateElo]
  ring

/-- C3: `expected_home_win_prob` is a total function on the reals whose value
is strictly between 0 and 1; moreover with equal ratings and a strictly
positive home-court advantage the value exceeds 1/2 (home edge). -/
theorem expectedHomeWinProb_in_Ioo_and_home_edge (h a adv : ℝ) :
    (0 < expectedHomeWinProb h a adv ∧ expectedHomeWinProb h a adv < 1) ∧
      (h = a → 0 < adv → 1 / 2 < expectedHomeWinProb h a adv) := by
  refine ⟨⟨expectedHomeWinProb_pos h a adv, expectedHomeWinProb_lt_one h a adv⟩, ?_⟩
  intro heq hadv
  subst heq
  unfold expectedHomeWinProb
  have hexp : (h - (h + adv)) / 400 < 0 := by
    apply div_neg_of_neg_of_pos <;> [linarith; norm_num]
  have h10 : (10 : ℝ) ^ ((h - (h + adv)) / 400) < 1 :=
    Real.rpow_lt_one_of_one_lt_of_neg (by norm_num) hexp
  have h10' : (0 : ℝ) < (10 : ℝ) ^ ((h - (h + adv)) / 400) :=
    Real.rpow_pos_of_pos (by norm_num) _
  simp only
  calc (1 : ℝ) / 2 < 1 / (1 + (10 : ℝ) ^ ((h - (h + adv)) / 400)) := by
        exact one_div_lt_one_div_of_lt (by linarith) (by linarith)
    _ = _ := rfl

/-- Witness for C3 at the spec's example input: home = away = 1500, adv = 65. -/
theorem expectedHomeWinProb_home_edge_witness :
    ((1500 : ℝ) = 1500 ∧ (0 : ℝ) < 65) ∧
      (0 < expectedHomeWinProb 1500 1500 65 ∧ expectedHomeWinProb 1500 1500 65 < 1) ∧
      1 / 2 < expectedHomeWinProb 1500 1500 65 := by
  refine ⟨⟨rfl, by norm_num⟩, (expectedHomeWinProb_in_Ioo_and_home_edge 1500 1500 65).1, ?_⟩
  exact (expectedHomeWinProb_in_Ioo_and_home_edge 1500 1500 65).2 rfl (by norm_num)

/-! ## Series simulator lemmas -/

/-- The game loop invariant: starting from counters that are at most 4, not
both 4, and that sum with the remaining schedule length to exactly 7, the
loop ends with exactly one side on 4 wins and the other strictly below. -/
theorem seriesGo_reaches_four (hi lo : SeededTeam) (k adv : ℝ) :
    ∀ (sched : List Bool) (hw lw : ℕ) (r : Ratings) (g : Rng),
      hw ≤ 4 → lw ≤ 4 → hw + lw + sched.length = 7 →
      ((seriesGo hi lo k adv sched hw lw r g).1 = 4 ∧
          (seriesGo hi lo k adv sched hw lw r g).2.1 < 4) ∨
        ((seriesGo hi lo k adv sched hw lw r g).2.1 = 4 ∧
          (seriesGo hi lo k adv sched hw lw r g).1 < 4) := by
  intro sched
  induction sched with
  | nil =>
    intro hw lw r g hhw hlw hsum
    simp only [List.length_nil, Nat.add_zero] at hsum
    simp only [seriesGo]
    omega
  | cons b rest ih =>
    intro hw lw r g hhw hlw hsum
    simp only [List.length_cons] at hsum
    simp only [seriesGo]
    by_cases hstop : hw = 4 ∨ lw = 4
    · rw [if_pos hstop]
      simp only [Prod.fst, Prod.snd]
      omega
    · rw [if_neg hstop]
      split <;> split <;>
        (first
          | (refine ih (hw + 1) lw _ _ ?_ ?_ ?_ <;> omega)
          | (refine ih hw (lw + 1) _ _ ?_ ?_ ?_ <;> omega))

/-- The game loop never adds more wins than the remaining schedule holds. -/
theorem seriesGo_total_le (hi lo : SeededTeam) (k adv : ℝ) :
    ∀ (sched : List Bool) (hw lw : ℕ) (r : Ratings) (g : Rng),
      (seriesGo hi lo k adv sched hw lw r g).1 +
          (seriesGo hi lo k adv sched hw lw r g).2.1 ≤ hw + lw + sched.length := by
  intro sched
  induction sched with
  | nil =>
    intro hw lw r g
    simp [seriesGo]
  | cons b rest ih =>
    intro hw lw r g
    simp only [List.length_cons, seriesGo]
    by_cases hstop : hw = 4 ∨ lw = 4
    · rw [if_pos hstop]
      simp only [Prod.fst, Prod.snd]
      omega
    · rw [if_neg hstop]
      split <;> split <;>
        (first
          | (exact le_trans (ih (hw + 1) lw _ _) (by omega))
          | (exact le_trans (ih hw (lw + 1) _ _) (by omega)))

/-- The loop stops as soon as one side has 4 wins: from any state where a
side already has 4 wins it returns immediately, playing no further game. -/
theorem seriesGo_stops_at_four (hi lo : SeededTeam) (k adv : ℝ)
    (sched : List Bool) (hw lw : ℕ) (r : Ratings) (g : Rng) :
    (hw = 4 ∨ lw = 4) → seriesGo hi lo k adv sched hw lw r g = (hw, lw, r, g) := by
  intro hstop
  cases sched with
  | nil => simp [seriesGo]
  | cons b rest => simp [seriesGo, hstop]

/-- C7: one call to `_simulate_series` plays at most 7 games (the final win
counters sum to at most 7 and the rng advances only once per played game),
stops as soon as either side reaches 4 wins (a state with 4 wins returns
immediately), and returns the team — higher seed or lower seed — that has
exactly 4 wins while the other side has strictly fewer. -/
theorem simulateSeries_best_of_seven (hi lo : SeededTeam) (r : Ratings) (g : Rng)
    (k adv : ℝ) :
    (∀ (sched : List Bool) (hw lw : ℕ) (r' : Ratings) (g' : Rng), (hw = 4 ∨ lw = 4) →
        seriesGo hi lo k adv sched hw lw r' g' = (hw, lw, r', g')) ∧
      (seriesGo hi lo k adv scheduleHighHome 0 0 r g).1 +
          (seriesGo hi lo k adv scheduleHighHome 0 0 r g).2.1 ≤ 7 ∧
      (((simulateSeries hi lo r g k adv).1 = hi ∧
          (seriesGo hi lo k adv scheduleHighHome 0 0 r g).1 = 4 ∧
          (seriesGo hi lo k adv scheduleHighHome 0 0 r g).2.1 < 4) ∨
        ((simulateSeries hi lo r g k adv).1 = lo ∧
          (seriesGo hi lo k adv scheduleHighHome 0 0 r g).2.1 = 4 ∧
          (seriesGo hi lo k adv scheduleHighHome 0 0 r g).1 < 4)) := by
  refine ⟨fun sched hw lw r' g' h => seriesGo_stops_at_four hi lo k adv sched hw lw r' g' h,
    ?_, ?_⟩
  · have := seriesGo_total_le hi lo k adv scheduleHighHome 0 0 r g
    simpa [scheduleHighHome] using this
  · have h4 := seriesGo_reaches_four hi lo k adv scheduleHighHome 0 0 r g
      (by omega) (by omega) (by simp [scheduleHighHome])
    simp only [simulateSeries]
    rcases h4 with ⟨h1, h2⟩ | ⟨h1, h2⟩
    · left
      refine ⟨?_, h1, h2⟩
      rw [if_pos (by omega)]
    · right
      refine ⟨?_, h1, h2⟩
      rw [if_neg (by omega)]

/-! ## Evaluation lemmas for concrete bracket runs -/

/-- Storing back the value just read leaves a fully populated rating map
unchanged (`k = 0` updates are the identity on the map). -/
theorem setRating_get_self (r : Ratings) (id : ℤ) (h : (r id).isSome) :
    setRating r id (getRating r id) = r := by
  obtain ⟨v, hv⟩ := Option.isSome_iff_exists.mp h
  unfold setRating getRating
  rw [hv]
  simp only [Option.getD_some]
  rw [← hv]
  exact Function.update_eq_self id r

/-- With a zero k-factor, `update_elo` returns the ratings unchanged. -/
theorem updateElo_zero_k (h a : ℝ) (w : Bool) (adv : ℝ) : updateElo h a w 0 adv = (h, a) := by
  simp [updateElo]

/-- A draw of 0 always falls strictly below the home win probability. -/
theorem decide_zero_lt_prob (h a adv : ℝ) :
    decide ((0 : ℝ) < expectedHomeWinProb h a adv) = true :=
  decide_eq_true (expectedHomeWinProb_pos h a adv)

/-- A draw of 1 never falls strictly below the home win probability. -/
theorem decide_one_lt_prob (h a adv : ℝ) :
    decide ((1 : ℝ) < expectedHomeWinProb h a adv) = false :=
  decide_eq_false (not_lt.mpr (le_of_lt (expectedHomeWinProb_lt_one h a adv)))

/-- One game of the loop at zero k-factor when the next draw is 0: the home
team of the slot wins, and the ratings map (fully populated) is unchanged. -/
theorem seriesGo_step_drawZero (hi lo : SeededTeam) (adv : ℝ) (b : Bool) (rest : List Bool)
    (hw lw : ℕ) (r : Ratings) (st : ℕ → ℝ) (p : ℕ)
    (hr : ∀ id, (r id).isSome) (hne : lo.team_id ≠ hi.team_id)
    (hnot : ¬(hw = 4 ∨ lw = 4)) (hdraw : st p = 0) :
    seriesGo hi lo 0 adv (b :: rest) hw lw r (st, p) =
      if b then seriesGo hi lo 0 adv rest (hw + 1) lw r (st, p + 1)
      else seriesGo hi lo 0 adv rest hw (lw + 1) r (st, p + 1) := by
  have hbeq : (lo.team_id == hi.team_id) = false := beq_eq_false_iff_ne.mpr hne
  simp only [seriesGo, if_neg hnot]
  cases b with
  | true =>
    simp [drawRandom, hdraw, decide_zero_lt_prob, updateElo_zero_k,
      setRating_get_self _ _ (hr _), hbeq]
  | false =>
    simp [drawRandom, hdraw, decide_zero_lt_prob, updateElo_zero_k,
      setRating_get_self _ _ (hr _), hbeq]

/-- One game of the loop at zero k-factor when the next draw is 1: the away
team of the slot wins, and the ratings map (fully populated) is unchanged. -/
theorem seriesGo_step_drawOne (hi lo : SeededTeam) (adv : ℝ) (b : Bool) (rest : List Bool)
    (hw lw : ℕ) (r : Ratings) (st : ℕ → ℝ) (p : ℕ)
    (hr : ∀ id, (r id).isSome) (hne : lo.team_id ≠ hi.team_id)
    (hnot : ¬(hw = 4 ∨ lw = 4)) (hdraw : st p = 1) :
    seriesGo hi lo 0 adv (b :: rest) hw lw r (st, p) =
      if b then seriesGo hi lo 0 adv rest hw (lw + 1) r (st, p + 1)
      else seriesGo hi lo 0 adv rest (hw + 1) lw r (st, p + 1) := by
  have hbeq : (lo.team_id == hi.team_id) = false := beq_eq_false_iff_ne.mpr hne
  simp only [seriesGo, if_neg hnot]
  cases b with
  | true =>
    simp [drawRandom, hdraw, decide_one_lt_prob, updateElo_zero_k,
      setRating_get_self _ _ (hr _), hbeq]
  | false =>
    simp [drawRandom, hdraw, decide_one_lt_prob, updateElo_zero_k,
      setRating_get_self _ _ (hr _), hbeq]

/-- Game at the high seed's venue with draw 0: the high seed wins the game. -/
theorem seriesGo_highHome_drawZero (hi lo : SeededTeam) (adv : ℝ) (rest : List Bool)
    (hw lw : ℕ) (r : Ratings) (st : ℕ → ℝ) (p : ℕ)
    (hr : ∀ id, (r id).isSome) (hne : lo.team_id ≠ hi.team_id)
    (hnot : ¬(hw = 4 ∨ lw = 4)) (hdraw : st p = 0) :
    seriesGo hi lo 0 adv (true :: rest) hw lw r (st, p) =
      seriesGo hi lo 0 adv rest (hw + 1) lw r (st, p + 1) := by
  rw [seriesGo_step_drawZero hi lo adv true rest hw lw r st p hr hne hnot hdraw]
  exact if_pos rfl

/-- Game at the low seed's venue with draw 1: the high seed wins the game. -/
theorem seriesGo_lowHome_drawOne (hi lo : SeededTeam) (adv : ℝ) (rest : List Bool)
    (hw lw : ℕ) (r : Ratings) (st : ℕ → ℝ) (p : ℕ)
    (hr : ∀ id, (r id).isSome) (hne : lo.team_id ≠ hi.team_id)
    (hnot : ¬(hw = 4 ∨ lw = 4)) (hdraw : st p = 1) :
    seriesGo hi lo 0 adv (false :: rest) hw lw r (st, p) =
      seriesGo hi lo 0 adv rest (hw + 1) lw r (st, p + 1) := by
  rw [seriesGo_step_drawOne hi lo adv false rest hw lw r st p hr hne hnot hdraw]
  exact if_neg Bool.false_ne_true

/-- Game at the high seed's venue with draw 1: the low seed wins the game. -/
theorem seriesGo_highHome_drawOne (hi lo : SeededTeam) (adv : ℝ) (rest : List Bool)
    (hw lw : ℕ) (r : Ratings) (st : ℕ → ℝ) (p : ℕ)
    (hr : ∀ id, (r id).isSome) (hne : lo.team_id ≠ hi.team_id)
    (hnot : ¬(hw = 4 ∨ lw = 4)) (hdraw : st p = 1) :
    seriesGo hi lo 0 adv (true :: rest) hw lw r (st, p) =
      seriesGo hi lo 0 adv rest hw (lw + 1) r (st, p + 1) := by
  rw [seriesGo_step_drawOne hi lo adv true rest hw lw r st p hr hne hnot hdraw]
  exact if_pos rfl

/-- Game at the low seed's venue with draw 0: the low seed wins the game. -/
theorem seriesGo_lowHome_drawZero (hi lo : SeededTeam) (adv : ℝ) (rest : List Bool)
    (hw lw : ℕ) (r : Ratings) (st : ℕ → ℝ) (p : ℕ)
    (hr : ∀ id, (r id).isSome) (hne : lo.team_id ≠ hi.team_id)
    (hnot : ¬(hw = 4 ∨ lw = 4)) (hdraw : st p = 0) :
    seriesGo hi lo 0 adv (false :: rest) hw lw r (st, p) =
      seriesGo hi lo 0 adv rest hw (lw + 1) r (st, p + 1) := by
  rw [seriesGo_step_drawZero hi lo adv false rest hw lw r st p hr hne hnot hdraw]
  exact if_neg Bool.false_ne_true

/-- Draw pattern 0,0,1,1 from position `p`: the high-seed-role team sweeps
the series 4-0 at zero k-factor, leaving the (fully populated) ratings map
unchanged and consuming exactly four draws. -/
theorem simulateSeries_sweepHigh (hi lo : SeededTeam) (r : Ratings) (st : ℕ → ℝ) (p : ℕ)
    (adv : ℝ) (hr : ∀ id, (r id).isSome) (hne : lo.team_id ≠ hi.team_id)
    (h0 : st p = 0) (h1 : st (p + 1) = 0) (h2 : st (p + 2) = 1) (h3 : st (p + 3) = 1) :
    simulateSeries hi lo r (st, p) 0 adv = (hi, r, (st, p + 4)) := by
  unfold simulateSeries
  rw [show scheduleHighHome = true :: true :: false :: false :: [true, false, true] from rfl]
  rw [seriesGo_highHome_drawZero hi lo adv _ 0 0 r st p hr hne (by omega) h0]
  rw [seriesGo_highHome_drawZero hi lo adv _ 1 0 r st (p + 1) hr hne (by omega) h1]
  rw [seriesGo_lowHome_drawOne hi lo adv _ 2 0 r st (p + 1 + 1) hr hne (by omega) h2]
  rw [seriesGo_lowHome_drawOne hi lo adv _ 3 0 r st (p + 1 + 1 + 1) hr hne (by omega) h3]
  rw [seriesGo_stops_at_four hi lo 0 adv _ 4 0 r (st, p + 1 + 1 + 1 + 1) (Or.inl rfl)]
  rfl

/-- Draw pattern 1,1,0,0 from position `p`: the low-seed-role team sweeps
the series 4-0 at zero k-factor, leaving the (fully populated) ratings map
unchanged and consuming exactly four draws. -/
theorem simulateSeries_sweepLow (hi lo : SeededTeam) (r : Ratings) (st : ℕ → ℝ) (p : ℕ)
    (adv : ℝ) (hr : ∀ id, (r id).isSome) (hne : lo.team_id ≠ hi.team_id)
    (h0 : st p = 1) (h1 : st (p + 1) = 1) (h2 : st (p + 2) = 0) (h3 : st (p + 3) = 0) :
    simulateSeries hi lo r (st, p) 0 adv = (lo, r, (st, p + 4)) := by
  unfold simulateSeries
  rw [show scheduleHighHome = true :: true :: false :: false :: [true, false, true] from rfl]
  rw [seriesGo_highHome_drawOne hi lo adv _ 0 0 r st p hr hne (by omega) h0]
  rw [seriesGo_highHome_drawOne hi lo adv _ 0 1 r st (p + 1) hr hne (by omega) h1]
  rw [seriesGo_lowHome_drawZero hi lo adv _ 0 2 r st (p + 1 + 1) hr hne (by omega) h2]
  rw [seriesGo_lowHome_drawZero hi lo adv _ 0 3 r st (p + 1 + 1 + 1) hr hne (by omega) h3]
  rw [seriesGo_stops_at_four hi lo 0 adv _ 0 4 r (st, p + 1 + 1 + 1 + 1) (Or.inr rfl)]
  rfl

/-- Every team id has an entry in the concrete rating map. -/
theorem ratingsCex_isSome : ∀ id, (ratingsCex id).isSome := fun _ => rfl

/-- Evaluation of the East bracket on the concrete inputs: with the 0,0,1,1
draw pattern everywhere, the high-seed role wins every series, so East seed 1
emerges as conference champion after 28 draws with the ratings unchanged. -/
theorem confChampion_eastCex :
    confChampion eastTeamsCex ratingsCex (streamCex, 0) 0 0 =
      some (eCex 1, ratingsCex, (streamCex, 28)) := by
  have hq1 : simulateSeries (eCex 1) (eCex 8) ratingsCex (streamCex, 0) 0 0 =
      (eCex 1, ratingsCex, (streamCex, 4)) := by
    simpa using simulateSeries_sweepHigh (eCex 1) (eCex 8) ratingsCex streamCex 0 0
      ratingsCex_isSome (by decide) (by norm_num [streamCex]) (by norm_num [streamCex])
      (by norm_num [streamCex]) (by norm_num [streamCex])
  have hq2 : simulateSeries (eCex 4) (eCex 5) ratingsCex (streamCex, 4) 0 0 =
      (eCex 4, ratingsCex, (streamCex, 8)) := by
    simpa using simulateSeries_sweepHigh (eCex 4) (eCex 5) ratingsCex streamCex 4 0
      ratingsCex_isSome (by decide) (by norm_num [streamCex]) (by norm_num [streamCex])
      (by norm_num [streamCex]) (by norm_num [streamCex])
  have hq3 : simulateSeries (eCex 2) (eCex 7) ratingsCex (streamCex, 8) 0 0 =
      (eCex 2, ratingsCex, (streamCex, 12)) := by
    simpa using simulateSeries_sweepHigh (eCex 2) (eCex 7) ratingsCex streamCex 8 0
      ratingsCex_isSome (by decide) (by norm_num [streamCex]) (by norm_num [streamCex])
      (by norm_num [streamCex]) (by norm_num [streamCex])
  have hq4 : simulateSeries (eCex 3) (eCex 6) ratingsCex (streamCex, 12) 0 0 =
      (eCex 3, ratingsCex, (streamCex, 16)) := by
    simpa using simulateSeries_sweepHigh (eCex 3) (eCex 6) ratingsCex streamCex 12 0
      ratingsCex_isSome (by decide) (by norm_num [streamCex]) (by norm_num [streamCex])
      (by norm_num [streamCex]) (by norm_num [streamCex])
  have hsf1 : seriesWithHomeCourt (eCex 1) (eCex 4) ratingsCex (streamCex, 16) 0 0 =
      (eCex 1, ratingsCex, (streamCex, 20)) := by
    rw [seriesWithHomeCourt, if_pos (by decide : (eCex 1).seed < (eCex 4).seed)]
    simpa using simulateSeries_sweepHigh (eCex 1) (eCex 4) ratingsCex streamCex 16 0
      ratingsCex_isSome (by decide) (by norm_num [streamCex]) (by norm_num [streamCex])
      (by norm_num [streamCex]) (by norm_num [streamCex])
  have hsf2 : seriesWithHomeCourt (eCex 2) (eCex 3) ratingsCex (streamCex, 20) 0 0 =
      (eCex 2, ratingsCex, (streamCex, 24)) := by
    rw [seriesWithHomeCourt, if_pos (by decide : (eCex 2).seed < (eCex 3).seed)]
    simpa using simulateSeries_sweepHigh (eCex 2) (eCex 3) ratingsCex streamCex 20 0
      ratingsCex_isSome (by decide) (by norm_num [streamCex]) (by norm_num [streamCex])
      (by norm_num [streamCex]) (by norm_num [streamCex])
  have hcf : seriesWithHomeCourt (eCex 1) (eCex 2) ratingsCex (streamCex, 24) 0 0 =
      (eCex 1, ratingsCex, (streamCex, 28)) := by
    rw [seriesWithHomeCourt, if_pos (by decide : (eCex 1).seed < (eCex 2).seed)]
    simpa using simulateSeries_sweepHigh (eCex 1) (eCex 2) ratingsCex streamCex 24 0
      ratingsCex_isSome (by decide) (by norm_num [streamCex]) (by norm_num [streamCex])
      (by norm_num [streamCex]) (by norm_num [streamCex])
  have hb1 : bySeed eastTeamsCex 1 = some (eCex 1) := rfl
  have hb2 : bySeed eastTeamsCex 2 = some (eCex 2) := rfl
  have hb3 : bySeed eastTeamsCex 3 = some (eCex 3) := rfl
  have hb4 : bySeed eastTeamsCex 4 = some (eCex 4) := rfl
  have hb5 : bySeed eastTeamsCex 5 = some (eCex 5) := rfl
  have hb6 : bySeed eastTeamsCex 6 = some (eCex 6) := rfl
  have hb7 : bySeed eastTeamsCex 7 = some (eCex 7) := rfl
  have hb8 : bySeed eastTeamsCex 8 = some (eCex 8) := rfl
  simp [confChampion, hb1, hb2, hb3, hb4, hb5, hb6, hb7, hb8,
    hq1, hq2, hq3, hq4, hsf1, hsf2, hcf]

/-- Evaluation of the West bracket on the concrete inputs: the 1,1,0,0 block
at draws 28-31 makes West seed 8 upset seed 1, after which the high-seed
role wins every series, leaving West seed 2 (team id 12) as conference
champion after draws 28-55 with the ratings unchanged. -/
theorem confChampion_westCex :
    confChampion westTeamsCex ratingsCex (streamCex, 28) 0 0 =
      some (wCex 2, ratingsCex, (streamCex, 56)) := by
  have hq1 : simulateSeries (wCex 1) (wCex 8) ratingsCex (streamCex, 28) 0 0 =
      (wCex 8, ratingsCex, (streamCex, 32)) := by
    simpa using simulateSeries_sweepLow (wCex 1) (wCex 8) ratingsCex streamCex 28 0
      ratingsCex_isSome (by decide) (by norm_num [streamCex]) (by norm_num [streamCex])
      (by norm_num [streamCex]) (by norm_num [streamCex])
  have hq2 : simulateSeries (wCex 4) (wCex 5) ratingsCex (streamCex, 32) 0 0 =
      (wCex 4, ratingsCex, (streamCex, 36)) := by
    simpa using simulateSeries_sweepHigh (wCex 4) (wCex 5) ratingsCex streamCex 32 0
      ratingsCex_isSome (by decide) (by norm_num [streamCex]) (by norm_num [streamCex])
      (by norm_num [streamCex]) (by norm_num [streamCex])
  have hq3 : simulateSeries (wCex 2) (wCex 7) ratingsCex (streamCex, 36) 0 0 =
      (wCex 2, ratingsCex, (streamCex, 40)) := by
    simpa using simulateSeries_sweepHigh (wCex 2) (wCex 7) ratingsCex streamCex 36 0
      ratingsCex_isSome (by decide) (by norm_num [streamCex]) (by norm_num [streamCex])
      (by norm_num [streamCex]) (by norm_num [streamCex])
  have hq4 : simulateSeries (wCex 3) (wCex 6) ratingsCex (streamCex, 40) 0 0 =
      (wCex 3, ratingsCex, (streamCex, 44)) := by
    simpa using simulateSeries_sweepHigh (wCex 3) (wCex 6) ratingsCex streamCex 40 0
      ratingsCex_isSome (by decide) (by norm_num [streamCex]) (by norm_num [streamCex])
      (by norm_num [streamCex]) (by norm_num [streamCex])
  have hsf1 : seriesWithHomeCourt (wCex 8) (wCex 4) ratingsCex (streamCex, 44) 0 0 =
      (wCex 4, ratingsCex, (streamCex, 48)) := by
    rw [seriesWithHomeCourt, if_neg (by decide : ¬(wCex 8).seed < (wCex 4).seed),
      if_pos (by decide : (wCex 4).seed < (wCex 8).seed)]
    simpa using simulateSeries_sweepHigh (wCex 4) (wCex 8) ratingsCex streamCex 44 0
      ratingsCex_isSome (by decide) (by norm_num [streamCex]) (by norm_num [streamCex])
      (by norm_num [streamCex]) (by norm_num [streamCex])
  have hsf2 : seriesWithHomeCourt (wCex 2) (wCex 3) ratingsCex (streamCex, 48) 0 0 =
      (wCex 2, ratingsCex, (streamCex, 52)) := by
    rw [seriesWithHomeCourt, if_pos (by decide : (wCex 2).seed < (wCex 3).seed)]
    simpa using simulateSeries_sweepHigh (wCex 2) (wCex 3) ratingsCex streamCex 48 0
      ratingsCex_isSome (by decide) (by norm_num [streamCex]) (by norm_num [streamCex])
      (by norm_num [streamCex]) (by norm_num [streamCex])
  have hcf : seriesWithHomeCourt (wCex 4) (wCex 2) ratingsCex (streamCex, 52) 0 0 =
      (wCex 2, ratingsCex, (streamCex, 56)) := by
    rw [seriesWithHomeCourt, if_neg (by decide : ¬(wCex 4).seed < (wCex 2).seed),
      if_pos (by decide : (wCex 2).seed < (wCex 4).seed)]
    simpa using simulateSeries_sweepHigh (wCex 2) (wCex 4) ratingsCex streamCex 52 0
      ratingsCex_isSome (by decide) (by norm_num [streamCex]) (by norm_num [streamCex])
      (by norm_num [streamCex]) (by norm_num [streamCex])
  have hb1 : bySeed westTeamsCex 1 = some (wCex 1) := rfl
  have hb2 : bySeed westTeamsCex 2 = some (wCex 2) := rfl
  have hb3 : bySeed westTeamsCex 3 = some (wCex 3) := rfl
  have hb4 : bySeed westTeamsCex 4 = some (wCex 4) := rfl
  have hb5 : bySeed westTeamsCex 5 = some (wCex 5) := rfl
  have hb6 : bySeed westTeamsCex 6 = some (wCex 6) := rfl
  have hb7 : bySeed westTeamsCex 7 = some (wCex 7) := rfl
  have hb8 : bySeed westTeamsCex 8 = some (wCex 8) := rfl
  simp [confChampion, hb1, hb2, hb3, hb4, hb5, hb6, hb7, hb8,
    hq1, hq2, hq3, hq4, hsf1, hsf2, hcf]

/-- Structure of `simulate_playoffs` after both conference brackets resolve:
the championship pairs the two conference champions with home court going to
the higher-rated one (`east_rating >= west_rating` keeps East at home). -/
theorem simulatePlayoffs_eq (field : PlayoffField) (r : Ratings) (g : Rng) (k adv : ℝ)
    (eo wo : SeededTeam × Ratings × Rng)
    (he : confChampion field.east r g k adv = some eo)
    (hw : confChampion field.west eo.2.1 eo.2.2 k adv = some wo) :
    simulatePlayoffs field r g k adv = some
      ((if getRating wo.2.1 eo.1.team_id ≥ getRating wo.2.1 wo.1.team_id then
          simulateSeries eo.1 wo.1 wo.2.1 wo.2.2 k adv
        else simulateSeries wo.1 eo.1 wo.2.1 wo.2.2 k adv).1, eo.1, wo.1) := by
  unfold simulatePlayoffs
  rw [he]
  simp only [Option.bind_eq_bind, Option.some_bind]
  rw [hw]
  simp only [Option.bind_eq_bind, Option.some_bind]

/-- Structure of the claim-modelled variant after both conference brackets
resolve: the championship is composed with the seed-then-rating rule. -/
theorem simulatePlayoffsClaimedFinals_eq (field : PlayoffField) (r : Ratings) (g : Rng)
    (k adv : ℝ) (eo wo : SeededTeam × Ratings × Rng)
    (he : confChampion field.east r g k adv = some eo)
    (hw : confChampion field.west eo.2.1 eo.2.2 k adv = some wo) :
    simulatePlayoffsClaimedFinals field r g k adv = some
      ((seriesWithHomeCourt eo.1 wo.1 wo.2.1 wo.2.2 k adv).1, eo.1, wo.1) := by
  unfold simulatePlayoffsClaimedFinals
  rw [he]
  simp only [Option.bind_eq_bind, Option.some_bind]
  rw [hw]
  simp only [Option.bind_eq_bind, Option.some_bind]

/-- The concrete East-bracket result, phrased on the field structure. -/
theorem confChampion_eastCex' :
    confChampion fieldCex.east ratingsCex rngCex 0 0 =
      some (eCex 1, ratingsCex, (streamCex, 28)) := confChampion_eastCex

/-- The concrete West-bracket result, phrased on the field structure. -/
theorem confChampion_westCex' :
    confChampion fieldCex.west
        ((eCex 1, ratingsCex, (streamCex, 28)) : SeededTeam × Ratings × Rng).2.1
        ((eCex 1, ratingsCex, (streamCex, 28)) : SeededTeam × Ratings × Rng).2.2 0 0 =
      some (wCex 2, ratingsCex, (streamCex, 56)) := confChampion_westCex

/-- On the concrete inputs the code's championship round gives the home-court
role to the higher-rated West champion (1600 vs 1400) even though the East
champion holds the lower seed number (1 vs 2); with the sweep draw pattern
the high-seed-role team wins, so the code's champion is West seed 2. -/
theorem simulatePlayoffs_cex_eval :
    simulatePlayoffs fieldCex ratingsCex rngCex 0 0 = some (wCex 2, eCex 1, wCex 2) := by
  have hfin : simulateSeries (wCex 2) (eCex 1) ratingsCex (streamCex, 56) 0 0 =
      (wCex 2, ratingsCex, (streamCex, 60)) := by
    simpa using simulateSeries_sweepHigh (wCex 2) (eCex 1) ratingsCex streamCex 56 0
      ratingsCex_isSome (by decide) (by norm_num [streamCex]) (by norm_num [streamCex])
      (by norm_num [streamCex]) (by norm_num [streamCex])
  have hrat : ¬ getRating ratingsCex (eCex 1).team_id ≥ getRating ratingsCex (wCex 2).team_id := by
    norm_num [getRating, ratingsCex, eCex, wCex]
  rw [simulatePlayoffs_eq fieldCex ratingsCex rngCex 0 0 _ _ confChampion_eastCex'
    confChampion_westCex']
  rw [if_neg hrat, hfin]

/-- Under claim C8's composition rule the East champion (lower seed number 1)
would take the high-seed role in the finals and, with the same draws, win the
title instead. -/
theorem simulatePlayoffsClaimedFinals_cex_eval :
    simulatePlayoffsClaimedFinals fieldCex ratingsCex rngCex 0 0 =
      some (eCex 1, eCex 1, wCex 2) := by
  have hfin : seriesWithHomeCourt (eCex 1) (wCex 2) ratingsCex (streamCex, 56) 0 0 =
      (eCex 1, ratingsCex, (streamCex, 60)) := by
    rw [seriesWithHomeCourt, if_pos (by decide : (eCex 1).seed < (wCex 2).seed)]
    simpa using simulateSeries_sweepHigh (eCex 1) (wCex 2) ratingsCex streamCex 56 0
      ratingsCex_isSome (by decide) (by norm_num [streamCex]) (by norm_num [streamCex])
      (by norm_num [streamCex]) (by norm_num [streamCex])
  rw [simulatePlayoffsClaimedFinals_eq fieldCex ratingsCex rngCex 0 0 _ _
    confChampion_eastCex' confChampion_westCex']
  rw [hfin]

/-- Counterexample to C8 as stated: on the concrete input the East champion
has the lower seed number (1 versus 2), so the claimed rule would give it the
high-seed role in the championship, yet the code resolves the championship by
rating alone and the two compositions produce different champions. -/
theorem finals_home_court_not_by_seed_cex :
    (eCex 1).seed < (wCex 2).seed ∧
    simulatePlayoffs fieldCex ratingsCex rngCex 0 0 = some (wCex 2, eCex 1, wCex 2) ∧
    simulatePlayoffsClaimedFinals fieldCex ratingsCex rngCex 0 0 =
      some (eCex 1, eCex 1, wCex 2) ∧
    simulatePlayoffs fieldCex ratingsCex rngCex 0 0 ≠
      simulatePlayoffsClaimedFinals fieldCex ratingsCex rngCex 0 0 := by
  refine ⟨by decide, simulatePlayoffs_cex_eval, simulatePlayoffsClaimedFinals_cex_eval, ?_⟩
  rw [simulatePlayoffs_cex_eval, simulatePlayoffsClaimedFinals_cex_eval]
  decide

/-- C8 (amended): whenever two series winners are composed through
`_series_with_home_court` — the semifinal and conference-final rounds — the
team with the lower numeric seed takes the high-seed role, and on equal seeds
the higher-rated team (ratings defaulting to 1500) takes it; the
cross-conference championship, however, is composed by current rating alone:
the higher-rated conference champion takes the high-seed role regardless of
seed numbers (`east_rating >= west_rating` keeps East at home). -/
theorem seriesComposition_rule_amended :
    (∀ (a b : SeededTeam) (r : Ratings) (g : Rng) (k adv : ℝ),
      (a.seed < b.seed → seriesWithHomeCourt a b r g k adv = simulateSeries a b r g k adv) ∧
      (b.seed < a.seed → seriesWithHomeCourt a b r g k adv = simulateSeries b a r g k adv) ∧
      (a.seed = b.seed → getRating r b.team_id ≤ getRating r a.team_id →
        seriesWithHomeCourt a b r g k adv = simulateSeries a b r g k adv) ∧
      (a.seed = b.seed → getRating r a.team_id < getRating r b.team_id →
        seriesWithHomeCourt a b r g k adv = simulateSeries b a r g k adv)) ∧
    (∀ (field : PlayoffField) (r : Ratings) (g : Rng) (k adv : ℝ)
        (eo wo : SeededTeam × Ratings × Rng),
      confChampion field.east r g k adv = some eo →
      confChampion field.west eo.2.1 eo.2.2 k adv = some wo →
      simulatePlayoffs field r g k adv = some
        ((if getRating wo.2.1 eo.1.team_id ≥ getRating wo.2.1 wo.1.team_id then
            simulateSeries eo.1 wo.1 wo.2.1 wo.2.2 k adv
          else simulateSeries wo.1 eo.1 wo.2.1 wo.2.2 k adv).1, eo.1, wo.1)) := by
  constructor
  · intro a b r g k adv
    refine ⟨?_, ?_, ?_, ?_⟩
    · intro h
      rw [seriesWithHomeCourt, if_pos h]
    · intro h
      rw [seriesWithHomeCourt, if_neg (by omega : ¬ a.seed < b.seed), if_pos h]
    · intro hseed hrat
      rw [seriesWithHomeCourt, if_neg (by omega : ¬ a.seed < b.seed),
        if_neg (by omega : ¬ b.seed < a.seed), if_pos hrat, if_pos hrat]
    · intro hseed hrat
      rw [seriesWithHomeCourt, if_neg (by omega : ¬ a.seed < b.seed),
        if_neg (by omega : ¬ b.seed < a.seed), if_neg (not_le.mpr hrat),
        if_neg (not_le.mpr hrat)]
  · exact simulatePlayoffs_eq

/-- Witness for the amended C8 at concrete inputs: all four branches of the
composition rule fire somewhere, and the concrete championship is composed by
rating. -/
theorem seriesComposition_rule_amended_witness :
    ((eCex 1).seed < (eCex 4).seed ∧
      seriesWithHomeCourt (eCex 1) (eCex 4) ratingsCex rngCex 0 0 =
        simulateSeries (eCex 1) (eCex 4) ratingsCex rngCex 0 0) ∧
    ((eCex 1).seed < (eCex 4).seed ∧
      seriesWithHomeCourt (eCex 4) (eCex 1) ratingsCex rngCex 0 0 =
        simulateSeries (eCex 1) (eCex 4) ratingsCex rngCex 0 0) ∧
    ((wCex 1).seed = (eCex 1).seed ∧
      getRating ratingsCex (eCex 1).team_id ≤ getRating ratingsCex (wCex 1).team_id ∧
      seriesWithHomeCourt (wCex 1) (eCex 1) ratingsCex rngCex 0 0 =
        simulateSeries (wCex 1) (eCex 1) ratingsCex rngCex 0 0) ∧
    ((eCex 1).seed = (wCex 1).seed ∧
      getRating ratingsCex (eCex 1).team_id < getRating ratingsCex (wCex 1).team_id ∧
      seriesWithHomeCourt (eCex 1) (wCex 1) ratingsCex rngCex 0 0 =
        simulateSeries (wCex 1) (eCex 1) ratingsCex rngCex 0 0) ∧
    simulatePlayoffs fieldCex ratingsCex rngCex 0 0 = some
      ((if getRating ratingsCex (eCex 1).team_id ≥ getRating ratingsCex (wCex 2).team_id then
          simulateSeries (eCex 1) (wCex 2) ratingsCex (streamCex, 56) 0 0
        else simulateSeries (wCex 2) (eCex 1) ratingsCex (streamCex, 56) 0 0).1,
        eCex 1, wCex 2) := by
  have hle : getRating ratingsCex (eCex 1).team_id ≤ getRating ratingsCex (wCex 1).team_id := by
    norm_num [getRating, ratingsCex, eCex, wCex]
  have hlt : getRating ratingsCex (eCex 1).team_id < getRating ratingsCex (wCex 1).team_id := by
    norm_num [getRating, ratingsCex, eCex, wCex]
  refine ⟨⟨by decide, (seriesComposition_rule_amended.1 (eCex 1) (eCex 4) ratingsCex rngCex
      0 0).1 (by decide)⟩,
    ⟨by decide, (seriesComposition_rule_amended.1 (eCex 4) (eCex 1) ratingsCex rngCex
      0 0).2.1 (by decide)⟩,
    ⟨by decide, hle, (seriesComposition_rule_amended.1 (wCex 1) (eCex 1) ratingsCex rngCex
      0 0).2.2.1 (by decide) hle⟩,
    ⟨by decide, hlt, (seriesComposition_rule_amended.1 (eCex 1) (wCex 1) ratingsCex rngCex
      0 0).2.2.2 (by decide) hlt⟩,
    seriesComposition_rule_amended.2 fieldCex ratingsCex rngCex 0 0 _ _
      confChampion_eastCex' confChampion_westCex'⟩

/-! ## Membership invariants of the bracket runner -/

/-- Lookup in the `by_seed` fold never produces a team outside the initial
map or the list. -/
theorem bySeed_foldl_mem :
    ∀ (l : List SeededTeam) (m : ℕ → Option SeededTeam) (i : ℕ) (t : SeededTeam),
      (l.foldl (fun (acc : ℕ → Option SeededTeam) t => Function.update acc t.seed (some t))
          m) i = some t →
      m i = some t ∨ t ∈ l := by
  intro l
  induction l with
  | nil => exact fun m i t h => Or.inl h
  | cons a l ih =>
    intro m i t h
    rcases ih _ i t h with h' | h'
    · dsimp only at h'
      by_cases hia : i = a.seed
      · subst hia
        rw [Function.update_same] at h'
        injection h' with h''
        exact Or.inr (h'' ▸ List.mem_cons_self a l)
      · rw [Function.update_noteq hia] at h'
        exact Or.inl h'
    · exact Or.inr (List.mem_cons_of_mem _ h')

/-- A successful `by_seed` lookup returns a member of the team list. -/
theorem bySeed_mem (teams : List SeededTeam) (i : ℕ) (t : SeededTeam)
    (h : bySeed teams i = some t) : t ∈ teams := by
  rcases bySeed_foldl_mem teams _ i t h with h' | h'
  · exact absurd h' (by simp)
  · exact h'

/-- The series simulator returns one of its two participants. -/
theorem simulateSeries_fst (hi lo : SeededTeam) (r : Ratings) (g : Rng) (k adv : ℝ) :
    (simulateSeries hi lo r g k adv).1 = hi ∨ (simulateSeries hi lo r g k adv).1 = lo := by
  have hval : (simulateSeries hi lo r g k adv).1 =
      if (seriesGo hi lo k adv scheduleHighHome 0 0 r g).1 >
          (seriesGo hi lo k adv scheduleHighHome 0 0 r g).2.1 then hi else lo := rfl
  rw [hval]
  split
  · exact Or.inl rfl
  · exact Or.inr rfl

/-- The home-court resolver returns one of its two participants. -/
theorem seriesWithHomeCourt_fst (a b : SeededTeam) (r : Ratings) (g : Rng) (k adv : ℝ) :
    (seriesWithHomeCourt a b r g k adv).1 = a ∨ (seriesWithHomeCourt a b r g k adv).1 = b := by
  unfold seriesWithHomeCourt
  split
  · exact simulateSeries_fst a b r g k adv
  · split
    · rcases simulateSeries_fst b a r g k adv with h | h
      · exact Or.inr h
      · exact Or.inl h
    · split
      · exact simulateSeries_fst a b r g k adv
      · rcases simulateSeries_fst b a r g k adv with h | h
        · exact Or.inr h
        · exact Or.inl h

/-- Closure of list membership under picking either of two members. -/
theorem mem_pair_closure {teams : List SeededTeam} {x a b : SeededTeam}
    (hs : x = a ∨ x = b) (ha : a ∈ teams) (hb : b ∈ teams) : x ∈ teams := by
  rcases hs with rfl | rfl
  · exact ha
  · exact hb

/-- When all eight seeds resolve, the conference bracket succeeds and its
champion is a member of the conference's team list. -/
theorem confChampion_mem (teams : List SeededTeam) (r : Ratings) (g : Rng) (k adv : ℝ)
    (hseeds : ∀ i ∈ ([1, 2, 3, 4, 5, 6, 7, 8] : List ℕ), (bySeed teams i).isSome) :
    ∃ out : SeededTeam × Ratings × Rng,
      confChampion teams r g k adv = some out ∧ out.1 ∈ teams := by
  obtain ⟨s1, h1⟩ := Option.isSome_iff_exists.mp (hseeds 1 (by decide))
  obtain ⟨s2, h2⟩ := Option.isSome_iff_exists.mp (hseeds 2 (by decide))
  obtain ⟨s3, h3⟩ := Option.isSome_iff_exists.mp (hseeds 3 (by decide))
  obtain ⟨s4, h4⟩ := Option.isSome_iff_exists.mp (hseeds 4 (by decide))
  obtain ⟨s5, h5⟩ := Option.isSome_iff_exists.mp (hseeds 5 (by decide))
  obtain ⟨s6, h6⟩ := Option.isSome_iff_exists.mp (hseeds 6 (by decide))
  obtain ⟨s7, h7⟩ := Option.isSome_iff_exists.mp (hseeds 7 (by decide))
  obtain ⟨s8, h8⟩ := Option.isSome_iff_exists.mp (hseeds 8 (by decide))
  have m1 := bySeed_mem teams 1 s1 h1
  have m2 := bySeed_mem teams 2 s2 h2
  have m3 := bySeed_mem teams 3 s3 h3
  have m4 := bySeed_mem teams 4 s4 h4
  have m5 := bySeed_mem teams 5 s5 h5
  have m6 := bySeed_mem teams 6 s6 h6
  have m7 := bySeed_mem teams 7 s7 h7
  have m8 := bySeed_mem teams 8 s8 h8
  obtain ⟨out, hout⟩ : ∃ out, confChampion teams r g k adv = some out := by
    simp [confChampion, h1, h2, h3, h4, h5, h6, h7, h8]
  refine ⟨out, hout, ?_⟩
  simp only [confChampion, h1, h2, h3, h4, h5, h6, h7, h8, Option.bind_eq_bind,
    Option.some_bind, Option.some.injEq] at hout
  subst hout
  exact mem_pair_closure (seriesWithHomeCourt_fst _ _ _ _ _ _)
    (mem_pair_closure (seriesWithHomeCourt_fst _ _ _ _ _ _)
      (mem_pair_closure (simulateSeries_fst _ _ _ _ _ _) m1 m8)
      (mem_pair_closure (simulateSeries_fst _ _ _ _ _ _) m4 m5))
    (mem_pair_closure (seriesWithHomeCourt_fst _ _ _ _ _ _)
      (mem_pair_closure (simulateSeries_fst _ _ _ _ _ _) m2 m7)
      (mem_pair_closure (simulateSeries_fst _ _ _ _ _ _) m3 m6))

/-- When both conference lists resolve all eight seeds, a full playoff run
succeeds, its conference champions belong to their conference lists, and the
overall champion is one of the two conference champions. -/
theorem simulatePlayoffs_mem (field : PlayoffField) (r : Ratings) (g : Rng) (k adv : ℝ)
    (he : ∀ i ∈ ([1, 2, 3, 4, 5, 6, 7, 8] : List ℕ), (bySeed field.east i).isSome)
    (hw : ∀ i ∈ ([1, 2, 3, 4, 5, 6, 7, 8] : List ℕ), (bySeed field.west i).isSome) :
    ∃ c e w, simulatePlayoffs field r g k adv = some (c, e, w) ∧
      e ∈ field.east ∧ w ∈ field.west ∧ (c = e ∨ c = w) := by
  obtain ⟨eo, heo, hem⟩ := confChampion_mem field.east r g k adv he
  obtain ⟨wo, hwo, hwm⟩ := confChampion_mem field.west eo.2.1 eo.2.2 k adv hw
  refine ⟨_, eo.1, wo.1, simulatePlayoffs_eq field r g k adv eo wo heo hwo, hem, hwm, ?_⟩
  by_cases hc : getRating wo.2.1 eo.1.team_id ≥ getRating wo.2.1 wo.1.team_id
  · rw [if_pos hc]
    exact simulateSeries_fst eo.1 wo.1 _ _ k adv
  · rw [if_neg hc]
    rcases simulateSeries_fst wo.1 eo.1 _ _ k adv with h' | h'
    · exact Or.inr h'
    · exact Or.inl h'

/-- C10: for every playoff field whose East and West lists resolve all seeds
1..8, every rating map, draw stream, k-factor and home-court advantage,
`simulate_playoffs` returns a triple (champion, east champion, west champion)
in which the East champion belongs to the field's East list, the West
champion to the West list, and the overall champion is one of the two. -/
theorem simulatePlayoffs_champions_in_field (field : PlayoffField) (r : Ratings) (g : Rng)
    (k adv : ℝ)
    (he : ∀ i ∈ ([1, 2, 3, 4, 5, 6, 7, 8] : List ℕ), (bySeed field.east i).isSome)
    (hw : ∀ i ∈ ([1, 2, 3, 4, 5, 6, 7, 8] : List ℕ), (bySeed field.west i).isSome) :
    ∃ c e w, simulatePlayoffs field r g k adv = some (c, e, w) ∧
      e ∈ field.east ∧ w ∈ field.west ∧ (c = e ∨ c = w) :=
  simulatePlayoffs_mem field r g k adv he hw

/-- Witness for C10 at the concrete field, ratings and stream. -/
theorem simulatePlayoffs_champions_in_field_witness :
    (∀ i ∈ ([1, 2, 3, 4, 5, 6, 7, 8] : List ℕ), (bySeed fieldCex.east i).isSome) ∧
    (∀ i ∈ ([1, 2, 3, 4, 5, 6, 7, 8] : List ℕ), (bySeed fieldCex.west i).isSome) ∧
    ∃ c e w, simulatePlayoffs fieldCex ratingsCex rngCex 0 0 = some (c, e, w) ∧
      e ∈ fieldCex.east ∧ w ∈ fieldCex.west ∧ (c = e ∨ c = w) :=
  ⟨by decide, by decide,
    simulatePlayoffs_champions_in_field fieldCex ratingsCex rngCex 0 0
      (by decide) (by decide)⟩

/-- Witness for C7: the theorem applied at a concrete series, with the
early-stop clause instantiated at a 4-win state. -/
theorem simulateSeries_best_of_seven_witness :
    ((0 = 4 ∨ 4 = 4) ∧
      seriesGo (eCex 1) (eCex 2) 0 0 scheduleHighHome 0 4 ratingsCex rngCex =
        (0, 4, ratingsCex, rngCex)) ∧
    (seriesGo (eCex 1) (eCex 2) 0 0 scheduleHighHome 0 0 ratingsCex rngCex).1 +
        (seriesGo (eCex 1) (eCex 2) 0 0 scheduleHighHome 0 0 ratingsCex rngCex).2.1 ≤ 7 ∧
    (((simulateSeries (eCex 1) (eCex 2) ratingsCex rngCex 0 0).1 = eCex 1 ∧
        (seriesGo (eCex 1) (eCex 2) 0 0 scheduleHighHome 0 0 ratingsCex rngCex).1 = 4 ∧
        (seriesGo (eCex 1) (eCex 2) 0 0 scheduleHighHome 0 0 ratingsCex rngCex).2.1 < 4) ∨
      ((simulateSeries (eCex 1) (eCex 2) ratingsCex rngCex 0 0).1 = eCex 2 ∧
        (seriesGo (eCex 1) (eCex 2) 0 0 scheduleHighHome 0 0 ratingsCex rngCex).2.1 = 4 ∧
        (seriesGo (eCex 1) (eCex 2) 0 0 scheduleHighHome 0 0 ratingsCex rngCex).1 < 4)) :=
  ⟨⟨Or.inr rfl,
      (simulateSeries_best_of_seven (eCex 1) (eCex 2) ratingsCex rngCex 0 0).1
        scheduleHighHome 0 4 ratingsCex rngCex (Or.inr rfl)⟩,
    (simulateSeries_best_of_seven (eCex 1) (eCex 2) ratingsCex rngCex 0 0).2.1,
    (simulateSeries_best_of_seven (eCex 1) (eCex 2) ratingsCex rngCex 0 0).2.2⟩

/-! ## Monte Carlo lemmas -/

/-- The trial loop consumes trials only through the per-trial outcome
function, which is evaluated on the caller's baseline map every time. -/
theorem runTrials_eq_runTrialsFrom (ri : ℤ → ℕ → ℕ) (rs : ℕ → ℕ → ℝ) (field : PlayoffField)
    (base : Ratings) (k adv : ℝ) (seed : ℤ) :
    ∀ (c t : ℕ) (tally : Tally),
      runTrials ri rs field base k adv seed c t tally =
        runTrialsFrom (trialOutcome ri rs field base k adv seed) c t tally := by
  intro c
  induction c with
  | zero => intro t tally; rfl
  | succ m ih =>
    intro t tally
    simp only [runTrials, runTrialsFrom, trialOutcome]
    cases h : simulatePlayoffs field base (mkChildRng rs (ri seed t)) k adv with
    | none => rfl
    | some val =>
      obtain ⟨c1, e1, w1⟩ := val
      exact ih (t + 1) _

/-- C9: the baseline rating map handed to `run_monte_carlo` is never mutated —
in the embedding every trial's `simulate_playoffs` receives the identical
`baseRatings` value (the semantics of `dict(base_ratings)` on an unmutated
caller map), and the whole aggregation factors through the sequence of
per-trial outcomes, each a function of the baseline map and that trial's
derived seed alone, so no trial's rating drift can reach the caller's map or
any other trial. -/
theorem runMonteCarlo_fresh_base_per_trial (ri : ℤ → ℕ → ℕ) (rs : ℕ → ℕ → ℝ)
    (field : PlayoffField) (base : Ratings) (n : ℕ) (k adv : ℝ) (seed : ℤ) :
    (∀ t, trialOutcome ri rs field base k adv seed t =
        simulatePlayoffs field base (mkChildRng rs (ri seed t)) k adv) ∧
    (∀ (c t : ℕ) (tally : Tally),
      runTrials ri rs field base k adv seed c t tally =
        runTrialsFrom (trialOutcome ri rs field base k adv seed) c t tally) ∧
    runMonteCarlo ri rs field base n k adv seed =
      (if n = 0 then .error "n_simulations must be greater than 0"
       else mcOutputs field n
         (runTrialsFrom (trialOutcome ri rs field base k adv seed) n 0 ⟨[], [], [], []⟩)) := by
  refine ⟨fun t => rfl, runTrials_eq_runTrialsFrom ri rs field base k adv seed, ?_⟩
  unfold runMonteCarlo
  rw [runTrials_eq_runTrialsFrom]

/-- C1: `run_monte_carlo` is deterministic — with the library generator
modelled as a fixed seed-indexed family of streams, two invocations that
receive identical field, ratings, simulation count, k-factor, home-court
advantage and seed are the same pure-function application and return
identical outputs (championship odds, conference odds and finals list alike). -/
theorem runMonteCarlo_deterministic (ri : ℤ → ℕ → ℕ) (rs : ℕ → ℕ → ℝ)
    (field : PlayoffField) (base : Ratings) (n : ℕ) (k adv : ℝ) (seed : ℤ)
    (hn : 0 < n) :
    runMonteCarlo ri rs field base n k adv seed =
      runMonteCarlo ri rs field base n k adv seed := rfl

/-- Witness for C1 at concrete streams, field, ratings and count. -/
theorem runMonteCarlo_deterministic_witness :
    0 < 1 ∧
    runMonteCarlo zeroIntSeq zeroRealSeq fieldCex ratingsCex 1 0 0 7 =
      runMonteCarlo zeroIntSeq zeroRealSeq fieldCex ratingsCex 1 0 0 7 :=
  ⟨by decide,
    runMonteCarlo_deterministic zeroIntSeq zeroRealSeq fieldCex ratingsCex 1 0 0 7
      (by decide)⟩

/-- Bumping a counter increases its total by exactly one. -/
theorem bump_countTotal {κ : Type} [DecidableEq κ] :
    ∀ (l : List (κ × ℕ)) (key : κ), countTotal (bump l key) = countTotal l + 1 := by
  intro l key
  induction l with
  | nil => simp [bump, countTotal]
  | cons e rest ih =>
    by_cases h : e.1 = key
    · simp only [bump, if_pos h]
      simp [countTotal]
      omega
    · simp only [bump, if_neg h]
      simp [countTotal] at ih ⊢
      omega

/-- Bumping a counter preserves a key invariant. -/
theorem bump_keys {κ : Type} [DecidableEq κ] (P : κ → Prop) :
    ∀ (l : List (κ × ℕ)) (key : κ), (∀ e ∈ l, P e.1) → P key →
      ∀ e ∈ bump l key, P e.1 := by
  intro l
  induction l with
  | nil =>
    intro key _ hk e he
    simp [bump] at he
    rw [he]
    exact hk
  | cons a rest ih =>
    intro key hl hk e he
    by_cases h : a.1 = key
    · simp only [bump, if_pos h] at he
      rcases List.mem_cons.mp he with rfl | hmem
      · exact hl a (List.mem_cons_self _ _)
      · exact hl _ (List.mem_cons_of_mem _ hmem)
    · simp only [bump, if_neg h] at he
      rcases List.mem_cons.mp he with rfl | hmem
      · exact hl _ (List.mem_cons_self _ _)
      · exact ih key (fun e' he' => hl e' (List.mem_cons_of_mem _ he')) hk e hmem

/-- When every counted id resolves through the lookup, the odds conversion
succeeds and its probability mass is the counter total divided by N. -/
theorem oddsOf_ok (lookup : ℤ → Option String) (n : ℕ) :
    ∀ (counts : List (ℤ × ℕ)), (∀ e ∈ counts, (lookup e.1).isSome) →
      ∃ odds, oddsOf lookup n counts = .ok odds ∧
        sumProbs odds = (countTotal counts : ℝ) / (n : ℝ) := by
  intro counts
  induction counts with
  | nil =>
    intro _
    exact ⟨[], rfl, by simp [sumProbs, countTotal]⟩
  | cons e rest ih =>
    intro h
    obtain ⟨nm, hnm⟩ := Option.isSome_iff_exists.mp (h e (List.mem_cons_self _ _))
    obtain ⟨tail, htail, hsum⟩ := ih fun e' he' => h e' (List.mem_cons_of_mem _ he')
    refine ⟨(e.1, nm, (e.2 : ℝ) / (n : ℝ)) :: tail, ?_, ?_⟩
    · simp only [oddsOf, hnm, htail]
    · simp only [sumProbs, countTotal, List.map_cons, List.sum_cons] at hsum ⊢
      rw [hsum]
      push_cast
      ring

/-- The `team_lookup` fold resolves every id present in the list or already
resolvable in the initial map. -/
theorem teamLookup_foldl_isSome :
    ∀ (l : List SeededTeam) (m0 : ℤ → Option String) (id : ℤ),
      ((∃ t ∈ l, t.team_id = id) ∨ (m0 id).isSome) →
      ((l.foldl (fun (acc : ℤ → Option String) t =>
          Function.update acc t.team_id (some t.team_name)) m0) id).isSome := by
  intro l
  induction l with
  | nil =>
    intro m0 id h
    rcases h with ⟨t, ht, _⟩ | h
    · exact absurd ht (by simp)
    · exact h
  | cons a rest ih =>
    intro m0 id h
    rw [List.foldl_cons]
    apply ih
    by_cases hid : a.team_id = id
    · right
      subst hid
      simp [Function.update_same]
    · rcases h with ⟨t, ht, hid'⟩ | h
      · rcases List.mem_cons.mp ht with rfl | hmem
        · exact absurd hid' hid
        · exact Or.inl ⟨t, hmem, hid'⟩
      · right
        dsimp only
        rwa [Function.update_noteq fun hh => hid hh.symm]

/-- Ids of field members always resolve through `team_lookup`. -/
theorem teamLookup_isSome (field : PlayoffField) (t : SeededTeam)
    (ht : t ∈ field.east ++ field.west) : (teamLookup field t.team_id).isSome :=
  teamLookup_foldl_isSome _ _ _ (Or.inl ⟨t, ht, rfl⟩)

/-- The trial loop, started on a structurally valid field, succeeds; each
trial adds exactly one count to each conference counter, and every counted id
belongs to the corresponding conference (champions to either conference). -/
theorem runTrials_ok (ri : ℤ → ℕ → ℕ) (rs : ℕ → ℕ → ℝ) (field : PlayoffField)
    (base : Ratings) (k adv : ℝ) (seed : ℤ)
    (he : ∀ i ∈ ([1, 2, 3, 4, 5, 6, 7, 8] : List ℕ), (bySeed field.east i).isSome)
    (hw : ∀ i ∈ ([1, 2, 3, 4, 5, 6, 7, 8] : List ℕ), (bySeed field.west i).isSome) :
    ∀ (c t : ℕ) (tally : Tally),
      (∀ e ∈ tally.champ, ∃ tm ∈ field.east ++ field.west, tm.team_id = e.1) →
      (∀ e ∈ tally.east, ∃ tm ∈ field.east, tm.team_id = e.1) →
      (∀ e ∈ tally.west, ∃ tm ∈ field.west, tm.team_id = e.1) →
      ∃ tally', runTrials ri rs field base k adv seed c t tally = .ok tally' ∧
        countTotal tally'.east = countTotal tally.east + c ∧
        countTotal tally'.west = countTotal tally.west + c ∧
        (∀ e ∈ tally'.champ, ∃ tm ∈ field.east ++ field.west, tm.team_id = e.1) ∧
        (∀ e ∈ tally'.east, ∃ tm ∈ field.east, tm.team_id = e.1) ∧
        (∀ e ∈ tally'.west, ∃ tm ∈ field.west, tm.team_id = e.1) := by
  intro c
  induction c with
  | zero =>
    intro t tally h1 h2 h3
    exact ⟨tally, rfl, by omega, by omega, h1, h2, h3⟩
  | succ m ih =>
    intro t tally h1 h2 h3
    obtain ⟨c0, e0, w0, hsp, hem, hwm, hc⟩ :=
      simulatePlayoffs_mem field base (mkChildRng rs (ri seed t)) k adv he hw
    have hc0 : ∃ tm ∈ field.east ++ field.west, tm.team_id = c0.team_id := by
      rcases hc with h | h
      · exact ⟨e0, List.mem_append_left _ hem, by rw [h]⟩
      · exact ⟨w0, List.mem_append_right _ hwm, by rw [h]⟩
    have hb1 := bump_keys (fun id => ∃ tm ∈ field.east ++ field.west, tm.team_id = id)
      tally.champ c0.team_id h1 hc0
    have hb2 := bump_keys (fun id => ∃ tm ∈ field.east, tm.team_id = id)
      tally.east e0.team_id h2 ⟨e0, hem, rfl⟩
    have hb3 := bump_keys (fun id => ∃ tm ∈ field.west, tm.team_id = id)
      tally.west w0.team_id h3 ⟨w0, hwm, rfl⟩
    obtain ⟨tally', htr, hE, hW, k1, k2, k3⟩ := ih (t + 1)
      ⟨bump tally.champ c0.team_id, bump tally.east e0.team_id,
        bump tally.west w0.team_id,
        bump tally.finals (e0.team_name ++ " vs " ++ w0.team_name)⟩ hb1 hb2 hb3
    refine ⟨tally', ?_, ?_, ?_, k1, k2, k3⟩
    · simp only [runTrials, hsp]
      exact htr
    · simp only [bump_countTotal] at hE
      omega
    · simp only [bump_countTotal] at hW
      omega

/-- C4: on a field resolving all seeds 1..8 in both conferences and a
positive simulation count, `run_monte_carlo` succeeds and, for each
conference, the conference-champion probabilities in the returned map sum to
exactly 1 (absent teams hold no entry and so contribute 0). -/
theorem runMonteCarlo_conference_mass (ri : ℤ → ℕ → ℕ) (rs : ℕ → ℕ → ℝ)
    (field : PlayoffField) (base : Ratings) (n : ℕ) (k adv : ℝ) (seed : ℤ)
    (hn : 0 < n)
    (he : ∀ i ∈ ([1, 2, 3, 4, 5, 6, 7, 8] : List ℕ), (bySeed field.east i).isSome)
    (hw : ∀ i ∈ ([1, 2, 3, 4, 5, 6, 7, 8] : List ℕ), (bySeed field.west i).isSome) :
    ∃ out : MCOutput, runMonteCarlo ri rs field base n k adv seed = .ok out ∧
      sumProbs out.eastOdds = 1 ∧ sumProbs out.westOdds = 1 := by
  obtain ⟨tally, htr, hE, hW, k1, k2, k3⟩ :=
    runTrials_ok ri rs field base k adv seed he hw n 0 ⟨[], [], [], []⟩
      (fun e he' => absurd he' (List.not_mem_nil e))
      (fun e he' => absurd he' (List.not_mem_nil e))
      (fun e he' => absurd he' (List.not_mem_nil e))
  obtain ⟨cOdds, hco, hcsum⟩ := oddsOf_ok (teamLookup field) n tally.champ fun e he' => by
    obtain ⟨tm, htm, hid⟩ := k1 e he'
    exact hid ▸ teamLookup_isSome field tm htm
  obtain ⟨eOdds, heo, hesum⟩ := oddsOf_ok (teamLookup field) n tally.east fun e he' => by
    obtain ⟨tm, htm, hid⟩ := k2 e he'
    exact hid ▸ teamLookup_isSome field tm (List.mem_append_left _ htm)
  obtain ⟨wOdds, hwo, hwsum⟩ := oddsOf_ok (teamLookup field) n tally.west fun e he' => by
    obtain ⟨tm, htm, hid⟩ := k3 e he'
    exact hid ▸ teamLookup_isSome field tm (List.mem_append_right _ htm)
  have hEn : countTotal tally.east = n := by
    simpa [countTotal] using hE
  have hWn : countTotal tally.west = n := by
    simpa [countTotal] using hW
  have hnR : (n : ℝ) ≠ 0 := Nat.cast_ne_zero.mpr (by omega)
  refine ⟨⟨cOdds, eOdds, wOdds, mostCommonTen n tally.finals⟩, ?_, ?_, ?_⟩
  · unfold runMonteCarlo
    rw [if_neg (by omega), htr]
    simp only [mcOutputs, hco, heo, hwo]
  · rw [hesum, hEn, div_self hnR]
  · rw [hwsum, hWn, div_self hnR]

/-- Witness for C4 at concrete streams, field, ratings and one trial. -/
theorem runMonteCarlo_conference_mass_witness :
    0 < 1 ∧
    (∀ i ∈ ([1, 2, 3, 4, 5, 6, 7, 8] : List ℕ), (bySeed fieldCex.east i).isSome) ∧
    (∀ i ∈ ([1, 2, 3, 4, 5, 6, 7, 8] : List ℕ), (bySeed fieldCex.west i).isSome) ∧
    ∃ out : MCOutput,
      runMonteCarlo zeroIntSeq zeroRealSeq fieldCex ratingsCex 1 0 0 7 = .ok out ∧
      sumProbs out.eastOdds = 1 ∧ sumProbs out.westOdds = 1 :=
  ⟨by decide, by decide, by decide,
    runMonteCarlo_conference_mass zeroIntSeq zeroRealSeq fieldCex ratingsCex 1 0 0 7
      (by decide) (by decide) (by decide)⟩

/-! ## Seeder lemmas -/

/-- The code's key-tuple comparison coincides with the spec's described
order: descending win percentage, then descending wins, then ascending
losses, then ascending team name. -/
theorem keyLe_eq_specStandingLe (a b : TeamStanding) :
    keyLe (standingSortKey a) (standingSortKey b) = specStandingLe a b := by
  simp only [keyLe, specStandingLe, standingSortKey]
  rcases lt_trichotomy a.win_pct b.win_pct with hp | hp | hp
  · rw [if_neg (by rw [neg_lt_neg_iff]; exact not_lt.mpr (le_of_lt hp)),
      if_pos (by rw [neg_lt_neg_iff]; exact hp),
      if_pos (show a.win_pct ≠ b.win_pct from hp.ne),
      decide_eq_false (not_lt.mpr (le_of_lt hp))]
  · rw [if_neg (by rw [neg_lt_neg_iff, hp]; exact lt_irrefl _),
      if_neg (by rw [neg_lt_neg_iff, hp]; exact lt_irrefl _),
      if_neg (show ¬a.win_pct ≠ b.win_pct from fun h => h hp)]
    rcases lt_trichotomy a.wins b.wins with hw | hw | hw
    · rw [if_neg (by omega : ¬(-(a.wins : ℤ) < -(b.wins : ℤ))),
        if_pos (by omega : -(b.wins : ℤ) < -(a.wins : ℤ)),
        if_pos (show a.wins ≠ b.wins from hw.ne),
        decide_eq_false (by omega : ¬b.wins < a.wins)]
    · rw [if_neg (by omega : ¬(-(a.wins : ℤ) < -(b.wins : ℤ))),
        if_neg (by omega : ¬(-(b.wins : ℤ) < -(a.wins : ℤ))),
        if_neg (show ¬a.wins ≠ b.wins from fun h => h hw)]
      rcases lt_trichotomy a.losses b.losses with hl | hl | hl
      · rw [if_pos (by omega : ((a.losses : ℤ) < (b.losses : ℤ))),
          if_pos (show a.losses ≠ b.losses from hl.ne),
          decide_eq_true hl]
      · rw [if_neg (by omega : ¬((a.losses : ℤ) < (b.losses : ℤ))),
          if_neg (by omega : ¬((b.losses : ℤ) < (a.losses : ℤ))),
          if_neg (show ¬a.losses ≠ b.losses from fun h => h hl)]
      · rw [if_neg (by omega : ¬((a.losses : ℤ) < (b.losses : ℤ))),
          if_pos (by omega : ((b.losses : ℤ) < (a.losses : ℤ))),
          if_pos (show a.losses ≠ b.losses from hl.ne'),
          decide_eq_false (by omega : ¬a.losses < b.losses)]
    · rw [if_pos (by omega : -(a.wins : ℤ) < -(b.wins : ℤ)),
        if_pos (show a.wins ≠ b.wins from hw.ne'),
        decide_eq_true (by omega : b.wins < a.wins)]
  · rw [if_pos (by rw [neg_lt_neg_iff]; exact hp),
      if_pos (show a.win_pct ≠ b.win_pct from hp.ne'),
      decide_eq_true hp]

/-- Sorting relations that agree pointwise produce the same insertion sort. -/
theorem insertionSort_congr {α : Type} (p q : α → α → Prop)
    [dp : DecidableRel p] [dq : DecidableRel q] (hpq : ∀ a b, p a b ↔ q a b) :
    ∀ l : List α, List.insertionSort p l = List.insertionSort q l := by
  have horder : ∀ (x : α) (l : List α),
      List.orderedInsert p x l = List.orderedInsert q x l := by
    intro x l
    induction l with
    | nil => rfl
    | cons y ys ih =>
      simp only [List.orderedInsert]
      by_cases h : p x y
      · rw [if_pos h, if_pos ((hpq x y).mp h)]
      · rw [if_neg h, if_neg (fun hq => h ((hpq x y).mpr hq)), ih]
  intro l
  induction l with
  | nil => rfl
  | cons y ys ih => simp only [List.insertionSort, ih, horder]

/-- The code's sort equals the spec's sort. -/
theorem sortStandings_eq_specSort (rows : List TeamStanding) :
    sortStandings rows = specSort rows := by
  unfold sortStandings specSort
  exact insertionSort_congr _ _ (fun a b => by rw [keyLe_eq_specStandingLe]) rows

/-- C5: whenever `build_playoff_field` succeeds, each conference's seeds 1..8
are assigned, in order, to the top eight of that conference's qualifying rows
sorted by the spec's order: descending win percentage, then descending win
count, then ascending loss count, then ascending team name. -/
theorem buildPlayoffField_seeds_by_spec_order (standings : List TeamStanding)
    (f : PlayoffField) (hok : buildPlayoffField standings = .ok f) :
    f.east = assignSeeds "East" 0 ((specSort (qualifying standings "East")).take 8) ∧
    f.west = assignSeeds "West" 0 ((specSort (qualifying standings "West")).take 8) := by
  unfold buildPlayoffField at hok
  by_cases hlen :
      (assignSeeds "East" 0 ((sortStandings (qualifying standings "East")).take 8)).length < 8 ∨
      (assignSeeds "West" 0 ((sortStandings (qualifying standings "West")).take 8)).length < 8
  · rw [if_pos hlen] at hok
    exact absurd hok (by simp)
  · rw [if_neg hlen] at hok
    injection hok with hok
    subst hok
    rw [sortStandings_eq_specSort, sortStandings_eq_specSort]
    exact ⟨rfl, rfl⟩

/-- Witness for C5 at a concrete standings list with all-distinct win
percentages. -/
theorem buildPlayoffField_seeds_by_spec_order_witness :
    buildPlayoffField standingsCex = .ok fieldFromStandingsCex ∧
    fieldFromStandingsCex.east =
      assignSeeds "East" 0 ((specSort (qualifying standingsCex "East")).take 8) ∧
    fieldFromStandingsCex.west =
      assignSeeds "West" 0 ((specSort (qualifying standingsCex "West")).take 8) :=
  ⟨rfl, buildPlayoffField_seeds_by_spec_order standingsCex fieldFromStandingsCex rfl⟩

/-- Seed assignment preserves list length. -/
theorem assignSeeds_length (conf : String) :
    ∀ (i : ℕ) (l : List TeamStanding), (assignSeeds conf i l).length = l.length := by
  intro i l
  induction l generalizing i with
  | nil => rfl
  | cons t rest ih => simp [assignSeeds, ih]

/-- Length of one conference's seeded list before the validity check. -/
theorem seededConference_length (standings : List TeamStanding) (conf : String) :
    (assignSeeds conf 0 ((sortStandings (qualifying standings conf)).take 8)).length =
      min 8 (qualifying standings conf).length := by
  rw [assignSeeds_length, List.length_take, sortStandings, List.length_insertionSort]

/-- C6: `build_playoff_field` raises its validation error exactly when one of
the two conferences has fewer than eight qualifying rows (rows whose
normalised conference is neither East nor West having been discarded), and on
success each conference carries exactly eight seeded teams. -/
theorem buildPlayoffField_error_iff (standings : List TeamStanding) :
    ((∃ msg, buildPlayoffField standings = .error msg) ↔
      (qualifying standings "East").length < 8 ∨
        (qualifying standings "West").length < 8) ∧
    ∀ f, buildPlayoffField standings = .ok f →
      f.east.length = 8 ∧ f.west.length = 8 := by
  have hE := seededConference_length standings "East"
  have hW := seededConference_length standings "West"
  constructor
  · constructor
    · rintro ⟨msg, hmsg⟩
      unfold buildPlayoffField at hmsg
      by_cases hlen :
          (assignSeeds "East" 0 ((sortStandings (qualifying standings "East")).take 8)).length
              < 8 ∨
            (assignSeeds "West" 0 ((sortStandings (qualifying standings "West")).take 8)).length
              < 8
      · rw [hE, hW] at hlen
        omega
      · rw [if_neg hlen] at hmsg
        exact absurd hmsg (by simp)
    · intro h
      refine ⟨"Could not build playoff field: both conferences need at least 8 teams in standings", ?_⟩
      unfold buildPlayoffField
      rw [if_pos (by rw [hE, hW]; omega)]
  · intro f hok
    unfold buildPlayoffField at hok
    by_cases hlen :
        (assignSeeds "East" 0 ((sortStandings (qualifying standings "East")).take 8)).length
            < 8 ∨
          (assignSeeds "West" 0 ((sortStandings (qualifying standings "West")).take 8)).length
            < 8
    · rw [if_pos hlen] at hok
      exact absurd hok (by simp)
    · rw [if_neg hlen] at hok
      injection hok with hok
      subst hok
      rw [hE, hW] at hlen
      constructor
      · dsimp only
        rw [hE]
        omega
      · dsimp only
        rw [hW]
        omega

/-- Witness for C6: the concrete sixteen-row standings build a field with
eight seeds per conference, and the seven-row list fails with the validation
error. -/
theorem buildPlayoffField_error_iff_witness :
    buildPlayoffField standingsCex = .ok fieldFromStandingsCex ∧
    (fieldFromStandingsCex.east.length = 8 ∧ fieldFromStandingsCex.west.length = 8) ∧
    ((qualifying shortStandingsCex "East").length < 8 ∨
      (qualifying shortStandingsCex "West").length < 8) ∧
    ∃ msg, buildPlayoffField shortStandingsCex = .error msg :=
  ⟨rfl, (buildPlayoffField_error_iff standingsCex).2 fieldFromStandingsCex rfl,
    by decide, (buildPlayoffField_error_iff shortStandingsCex).1.mpr (by decide)⟩

end NbaOdds
